import Mathlib

/-!
A verification development for the `pm_arb` prediction-market matching and
arbitrage-detection core.

The Python source is shallowly embedded: dataclasses become structures,
`Optional[float]` prices become `Option ℚ` (Python floats are modelled by
exact rationals; float rounding is abstracted away), fallible operations
return `Except` or `Option`, and the mutable market registry becomes an
explicit lookup function that is threaded through the calls.

Third-party library calls are modelled by their documented behaviour:
`difflib.SequenceMatcher.ratio` is implemented in full (longest-matching-
block recursion, no junk heuristic, which is exact for the short strings
involved); Python's `or` on optional prices and `all(...)` keep their
truthiness semantics (`0.0` is falsy); `datetime` subtraction keeps
`timedelta.days` floor semantics.  The corpus-relative TF-IDF similarity
matrix of `find_matches` is kept as an explicit parameter of the matcher
model; for the two-document corpus used by `match_single_pair` it is
pinned down by `tfidfPairSim` below.
-/

/-- `UnifiedContract` from `api/models.py`.  Prices are probabilities in
`[0,1]` or absent.  The free-form `extra` dict carries no modelled data and
is omitted. -/
structure UnifiedContract where
  source : String
  market_id : String
  contract_id : String
  name : String
  side : String
  outcome_type : String
  price_bid : Option ℚ := none
  price_ask : Option ℚ := none
  last_price : Option ℚ := none
  volume : Option ℚ := none
  open_interest : Option ℚ := none
  deriving Repr, DecidableEq

/-- `UnifiedMarket` from `api/models.py` (again without the free-form
`extra` dict). -/
structure UnifiedMarket where
  source : String
  market_id : String
  name : String
  event_time : Option String := none
  category : Option String := none
  contracts : List UnifiedContract := []
  deriving Repr, DecidableEq

/-- `MatchedMarketPairORM` from `sql_storage.py`: one persisted matched-pair
row.  `DateTime` columns are modelled as abstract ticks (`ℕ`); the
autoincrement primary key is carried as an optional `id` (never assigned by
the model, which identifies rows positionally in the table list). -/
structure MatchedMarketPair where
  id : Option ℕ := none
  source_a : String
  market_id_a : String
  source_b : String
  market_id_b : String
  similarity : ℚ
  classifier_probability : Option ℚ := none
  name_similarity : Option ℚ := none
  category_similarity : Option ℚ := none
  temporal_proximity : Option ℚ := none
  is_manual_confirmed : Bool := false
  confirmed_by : Option String := none
  confirmed_at : Option ℕ := none
  notes : Option String := none
  created_at : ℕ := 0
  updated_at : ℕ := 0
  deriving Repr, DecidableEq

/-- `ArbitrageOpportunity` from `arbitrage_detector.py`. -/
structure ArbitrageOpportunity where
  source_a : String
  market_id_a : String
  source_b : String
  market_id_b : String
  yes_contract_a : UnifiedContract
  no_contract_a : UnifiedContract
  yes_contract_b : UnifiedContract
  no_contract_b : UnifiedContract
  profit_if_yes : ℚ
  profit_if_no : ℚ
  min_profit : ℚ
  max_profit : ℚ
  roi_pct : ℚ
  total_investment : ℚ
  match_similarity : ℚ
  is_arbitrage : Bool
  is_scalp : Bool
  break_even_spread : ℚ
  arbitrage_type : String
  notes : String := ""
  matched_pair_id : Option ℕ := none
  deriving Repr, DecidableEq

/-! ## Arbitrage detector (`arbitrage_detector.py`) -/

/-- Python's `x or y` on optional prices (`yes_a.price_ask or
yes_a.last_price`): the right operand is taken whenever the left is falsy,
i.e. `None` **or** `0.0`. -/
def pyOr (a b : Option ℚ) : Option ℚ :=
  match a with
  | some x => if x = 0 then b else some x
  | none => b

/-- Python truthiness of an optional price, as used by
`all([yes_a_price, ...])`: `None` and `0.0` are falsy. -/
def priceTruthy (p : Option ℚ) : Bool :=
  match p with
  | some x => decide (x ≠ 0)
  | none => false

/-- `ArbitrageDetector._is_binary_market`: non-empty contract list with at
least two contracts whose `outcome_type` is exactly `"binary"` and whose
`side` is exactly `"YES"` or `"NO"`. -/
def isBinaryMarket (m : UnifiedMarket) : Bool :=
  !m.contracts.isEmpty &&
    2 ≤ (m.contracts.filter (fun c =>
      c.outcome_type == "binary" && (c.side == "YES" || c.side == "NO"))).length

/-- ASCII upper-casing, modelling Python `str.upper()` on the ASCII side
labels handled here. -/
def asciiUpper (s : String) : String :=
  String.mk (s.data.map Char.toUpper)

/-- `ArbitrageDetector._extract_binary_contracts`: left fold over the
contracts; the **last** contract whose upper-cased side is `"YES"` (resp.
`"NO"`) wins. -/
def extractBinaryContracts (m : UnifiedMarket) :
    Option UnifiedContract × Option UnifiedContract :=
  m.contracts.foldl
    (fun acc c =>
      if asciiUpper c.side = "YES" then (some c, acc.2)
      else if asciiUpper c.side = "NO" then (acc.1, some c)
      else acc)
    (none, none)

/-- The price-availability step of `_calculate_both_sides_opportunity`
(lines 260–272): compute the four effective prices as `price_ask or
last_price`, fail if any is falsy (`None`/`0.0`: the `not all([...])`
check), then fail if any is outside `[0,1]`.  Returns the four effective
prices when the pair survives this step. -/
def priceCheck (yes_a no_a yes_b no_b : UnifiedContract) : Option (ℚ × ℚ × ℚ × ℚ) :=
  match pyOr yes_a.price_ask yes_a.last_price, pyOr no_a.price_ask no_a.last_price,
        pyOr yes_b.price_ask yes_b.last_price, pyOr no_b.price_ask no_b.last_price with
  | some ya, some na, some yb, some nb =>
    if ya = 0 ∨ na = 0 ∨ yb = 0 ∨ nb = 0 then none
    else if 0 ≤ ya ∧ ya ≤ 1 ∧ 0 ≤ na ∧ na ≤ 1 ∧ 0 ≤ yb ∧ yb ≤ 1 ∧ 0 ≤ nb ∧ nb ≤ 1 then
      some (ya, na, yb, nb)
    else none
  | _, _, _, _ => none

/-- The leg choice of `_calculate_both_sides_opportunity`: buy in market A
when its price is less than or equal to market B's (a tie favours A). -/
def chooseLeg (pa pb : ℚ) : ℚ × String :=
  if pa ≤ pb then (pa, "A") else (pb, "B")

/-- `ArbitrageDetector._calculate_both_sides_opportunity`.  The `market_a`
/ `market_b` parameters of the Python function are unused in its body and
omitted; the note string carries the leg sources but not the Python
`:.4f`-formatted prices. -/
def calcBothSidesOpportunity (minProfitThreshold : ℚ) (pair : MatchedMarketPair)
    (yes_a no_a yes_b no_b : UnifiedContract) : Option ArbitrageOpportunity :=
  match priceCheck yes_a no_a yes_b no_b with
  | none => none
  | some (yes_a_p, no_a_p, yes_b_p, no_b_p) =>
    let yesLeg := chooseLeg yes_a_p yes_b_p
    let noLeg := chooseLeg no_a_p no_b_p
    let total_investment := yesLeg.1 + noLeg.1
    let guaranteed_return : ℚ := 1
    let profit_if_yes := guaranteed_return - (yesLeg.1 + noLeg.1)
    let profit_if_no := guaranteed_return - (yesLeg.1 + noLeg.1)
    let min_profit := profit_if_yes
    let max_profit := profit_if_yes
    if min_profit < minProfitThreshold then none
    else
      let roi_pct := if 0 < total_investment then min_profit / total_investment * 100 else 0
      let is_arb := decide (min_profit > 1/1000)
      some
        { source_a := pair.source_a
          market_id_a := pair.market_id_a
          source_b := pair.source_b
          market_id_b := pair.market_id_b
          yes_contract_a := yes_a
          no_contract_a := no_a
          yes_contract_b := yes_b
          no_contract_b := no_b
          profit_if_yes := profit_if_yes
          profit_if_no := profit_if_no
          min_profit := min_profit
          max_profit := max_profit
          roi_pct := roi_pct
          total_investment := total_investment
          match_similarity := pair.similarity
          is_arbitrage := is_arb
          is_scalp := false
          break_even_spread := total_investment - 1
          arbitrage_type := if is_arb then "both_sides" else "hedge"
          notes := "Buy YES at " ++ yesLeg.2 ++ ", NO at " ++ noLeg.2
          matched_pair_id := pair.id }

/-- The detector's market registry `markets_dict`, keyed by
`(source, market_id)`. -/
def MarketsDict : Type := String × String → Option UnifiedMarket

/-- `ArbitrageDetector.register_markets`: index each market by
`(source, market_id)`, overwriting any prior entry for the same key. -/
def registerMarkets (d : MarketsDict) (markets : List UnifiedMarket) : MarketsDict :=
  markets.foldl
    (fun acc m => fun k => if k = (m.source, m.market_id) then some m else acc k) d

/-- The empty registry of a freshly constructed detector. -/
def emptyMarketsDict : MarketsDict := fun _ => none

/-- `ArbitrageDetector._analyze_pair`: look up both markets (skip if either
is absent), require both to be binary, extract the YES/NO contracts (skip
if any is missing), and evaluate the single both-sides strategy. -/
def analyzePair (d : MarketsDict) (minProfitThreshold : ℚ)
    (pair : MatchedMarketPair) : List ArbitrageOpportunity :=
  match d (pair.source_a, pair.market_id_a), d (pair.source_b, pair.market_id_b) with
  | some market_a, some market_b =>
    if isBinaryMarket market_a && isBinaryMarket market_b then
      match extractBinaryContracts market_a, extractBinaryContracts market_b with
      | (some yes_a, some no_a), (some yes_b, some no_b) =>
        match calcBothSidesOpportunity minProfitThreshold pair yes_a no_a yes_b no_b with
        | some opp => [opp]
        | none => []
      | _, _ => []
    else []
  | _, _ => []

/-- `ArbitrageDetector.detect_opportunities` on an explicitly supplied pair
collection (the `matched_pairs is None` branch performs the database query
and is external I/O): analyze every pair and sort by `min_profit`
descending (`list.sort` is stable; `List.mergeSort` is as well). -/
def detectOpportunities (d : MarketsDict) (minProfitThreshold : ℚ)
    (pairs : List MatchedMarketPair) : List ArbitrageOpportunity :=
  (pairs.flatMap (analyzePair d minProfitThreshold)).mergeSort
    (fun x y => decide (y.min_profit ≤ x.min_profit))

/-! ## Text utilities shared by the matcher (`matcher.py`) -/

/-- A `\w` character of Python's `re` module, restricted to ASCII (every
market name, category and side label in play is ASCII). -/
def isWordChar (c : Char) : Bool := c.isAlphanum || c == '_'

/-- A `\s` character of Python's `re` module (ASCII). -/
def isSpaceChar (c : Char) : Bool :=
  c == ' ' || c == '\t' || c == '\n' || c == '\r' || c == '\x0b' || c == '\x0c'

/-- Replace each maximal run of whitespace by a single space
(`re.sub(r"\s+", " ", ...)`).  The flag records whether the previous
character was whitespace. -/
def squeezeSpaces : List Char → Bool → List Char
  | [], _ => []
  | c :: cs, prev =>
    if isSpaceChar c then
      if prev then squeezeSpaces cs true else ' ' :: squeezeSpaces cs true
    else c :: squeezeSpaces cs false

/-- Python `str.strip()` after whitespace collapsing (only plain spaces can
remain at that point). -/
def stripSpaces (l : List Char) : List Char :=
  ((l.dropWhile (· == ' ')).reverse.dropWhile (· == ' ')).reverse

/-- `MarketMatcher._clean_text`: lower-case, replace every character that is
neither `\w` nor `\s` by a space, collapse whitespace runs, strip. -/
def cleanText (s : String) : String :=
  let lowered := s.data.map Char.toLower
  let replaced := lowered.map fun c => if isWordChar c || isSpaceChar c then c else ' '
  String.mk (stripSpaces (squeezeSpaces replaced false))

/-! ### `difflib.SequenceMatcher.ratio`

`_fuzzy_match` delegates to the standard library's `SequenceMatcher`.  For
the short strings compared here the autojunk heuristic never activates
(it requires the second string to have at least 200 characters), so
`ratio()` is: recursively pick the longest matching block — ties resolved
towards the earliest start in the first string and then in the second —
and sum the matched lengths; the score is `2*M/T` where `T` is the total
length (and `1.0` when both strings are empty). -/

/-- Length of the common prefix of two character lists. -/
def matchRun : List Char → List Char → ℕ
  | x :: xs, y :: ys => if x = y then matchRun xs ys + 1 else 0
  | _, _ => 0

/-- All blocks `(i, j, k)` where `k` is the length of the common run of
`a` from `i` and `b` from `j`, enumerated in the tie-breaking order used
by `SequenceMatcher.find_longest_match` (ascending `i`, then `j`). -/
def blockCandidates (a b : List Char) : List (ℕ × ℕ × ℕ) :=
  (List.range a.length).flatMap fun i =>
    (List.range b.length).map fun j => (i, j, matchRun (a.drop i) (b.drop j))

/-- The longest matching block; on ties the earliest candidate wins
(strict improvement only, matching `find_longest_match`). -/
def bestBlock (a b : List Char) : ℕ × ℕ × ℕ :=
  (blockCandidates a b).foldl (fun best c => if best.2.2 < c.2.2 then c else best) (0, 0, 0)

/-- Total matched size `M` of `get_matching_blocks`, written with explicit
fuel to keep the kernel-reducible structural recursion: every recursive
call strictly decreases `a.length + b.length` (a non-trivial best block
satisfies `i + k ≤ a.length`, `j + k ≤ b.length`, `k ≥ 1`), so fuel
`a.length + b.length + 1` — as supplied by `seqMatchTotal` — never runs
out. -/
def seqMatchesFuel : ℕ → List Char → List Char → ℕ
  | 0, _, _ => 0
  | fuel + 1, a, b =>
    let ijk := bestBlock a b
    if ijk.2.2 = 0 then 0
    else
      seqMatchesFuel fuel (a.take ijk.1) (b.take ijk.2.1) + ijk.2.2 +
        seqMatchesFuel fuel (a.drop (ijk.1 + ijk.2.2)) (b.drop (ijk.2.1 + ijk.2.2))

/-- Total matched size `M` for two character lists. -/
def seqMatchTotal (a b : List Char) : ℕ :=
  seqMatchesFuel (a.length + b.length + 1) a b

/-- `SequenceMatcher(None, a, b).ratio() = 2*M/T` (`1.0` when `T = 0`). -/
def difflibScore (a b : List Char) : ℚ :=
  let t := a.length + b.length
  if t = 0 then 1 else 2 * (seqMatchTotal a b : ℚ) / t

/-- `MarketMatcher._fuzzy_match`: clean both strings, then the
`SequenceMatcher` score. -/
def fuzzyMatch (x y : String) : ℚ :=
  difflibScore (cleanText x).data (cleanText y).data

/-! ### Two-document TF-IDF cosine

`find_matches` fits `TfidfVectorizer(analyzer="char", ngram_range=(2,3),
lowercase=True, strip_accents="ascii")` over the cleaned names and takes
cosine similarities.  When `match_single_pair` calls it, the corpus is
exactly the two cleaned names.  With two documents and sklearn's smooth
idf, a gram occurring in both documents has idf `ln(3/3)+1 = 1` and a
gram unique to one document has idf `ln(3/2)+1`; grams unique to one
document contribute nothing to the dot product, so the cosine is `0`
exactly when the documents share no gram, and `1` exactly when their gram
multisets coincide (equal tf-idf vectors).  Between those regions the true
value is irrational (it involves `ln(3/2)`); this rational model returns a
clearly-marked stand-in strictly between 0 and 1 there, and no theorem in
this file depends on that branch. -/

/-- Character `n`-grams of a list (sklearn `char` analyzer). -/
def ngramsOf (n : ℕ) (l : List Char) : List (List Char) :=
  (List.range (l.length + 1 - n)).map fun i => (l.drop i).take n

/-- The 2- and 3-grams of a document, with multiplicity. -/
def gramList (s : String) : List (List Char) := ngramsOf 2 s.data ++ ngramsOf 3 s.data

/-- Term frequency of gram `g` in document `s`. -/
def gramCount (s : String) (g : List Char) : ℕ := (gramList s).count g

/-- Dot product of the two raw term-frequency vectors restricted to shared
grams (where the two-document idf is exactly 1). -/
def sharedWeight (a b : String) : ℕ :=
  ((gramList a).dedup.map fun g => gramCount a g * gramCount b g).sum

/-- The TF-IDF cosine of the two-document corpus `{a, b}` (documents are
already cleaned).  See the section comment: exact on the three rational
regions (an empty gram vector, equal gram multisets, disjoint gram
supports); the final branch is an explicit stand-in for the irrational
general value and is unused by every theorem below.  sklearn's
`ValueError` on a corpus with an empty vocabulary is modelled at the
`find_matches` level by `findMatchesExc` below. -/
def tfidfPairSim (a b : String) : ℚ :=
  if gramList a = [] ∨ gramList b = [] then 0
  else if (gramList a).Perm (gramList b) then 1
  else if sharedWeight a b = 0 then 0
  else (sharedWeight a b : ℚ) / (sharedWeight a b + 1)

/-! ## Similarity components (`matcher.py`) -/

/-- ASCII lower-casing (Python `str.lower()` on the ASCII data in play). -/
def strLower (s : String) : String := String.mk (s.data.map Char.toLower)

/-- Python `needle in haystack` substring containment. -/
def strContains (haystack needle : String) : Bool :=
  (List.range (haystack.data.length + 1)).any fun i =>
    (haystack.data.drop i).take needle.data.length == needle.data

/-- `MarketMatcher._compute_category_similarity`. -/
def categorySimilarity (a b : UnifiedMarket) : ℚ :=
  let cat_a := a.category.getD ""
  let cat_b := b.category.getD ""
  if cat_a = "" ∨ cat_b = "" then 1/2
  else if strLower cat_a = strLower cat_b then 1
  else if strContains (strLower cat_b) (strLower cat_a) ||
      strContains (strLower cat_a) (strLower cat_b) then 7/10
  else 0

/-- `MarketMatcher._compute_contract_similarity`. -/
def contractSimilarity (a b : UnifiedMarket) : ℚ :=
  if a.contracts.isEmpty || b.contracts.isEmpty then 0
  else
    let types_a := (a.contracts.map (·.outcome_type)).toFinset
    let types_b := (b.contracts.map (·.outcome_type)).toFinset
    let allTypes := (types_a ∪ types_b).card
    let typeSim : ℚ := if allTypes ≠ 0 then ((types_a ∩ types_b).card : ℚ) / allTypes else 0
    let count_a := a.contracts.length
    let count_b := b.contracts.length
    let countSim : ℚ := max 0 (1 - |(count_a : ℚ) - (count_b : ℚ)| / (max count_a count_b : ℕ))
    3/5 * typeSim + 2/5 * countSim

/-! ### Event-time parsing

`_parse_event_time` tries `datetime.fromisoformat` (after replacing a `Z`
suffix) and then falls back to `dateutil`.  The model implements the
naive-datetime core of that grammar — `YYYY-MM-DD` and
`YYYY-MM-DDTHH:MM:SS` — on which it agrees with CPython, and maps every
other string to `none` (parse failure).  Offset-aware strings (`Z` or
`+HH:MM`) and `dateutil`-only formats are therefore treated as
unparseable; all theorems below quantify over parse *results*, so this
restriction only restricts which concrete instances can be exhibited.
A parsed time is the naive timestamp in seconds from `0001-01-01
00:00:00`. -/

/-- Numeric value of a decimal digit. -/
def digitVal (c : Char) : Option ℕ :=
  if c.isDigit then some (c.toNat - '0'.toNat) else none

/-- Gregorian leap year. -/
def isLeapYear (y : ℕ) : Bool :=
  (y % 4 == 0 && y % 100 != 0) || y % 400 == 0

/-- Days in a month of the proleptic Gregorian calendar. -/
def daysInMonth (y m : ℕ) : ℕ :=
  if m = 1 ∨ m = 3 ∨ m = 5 ∨ m = 7 ∨ m = 8 ∨ m = 10 ∨ m = 12 then 31
  else if m = 2 then (if isLeapYear y then 29 else 28)
  else 30

/-- Days contributed by the full months preceding month `m` of year `y`. -/
def daysBeforeMonth (y m : ℕ) : ℕ :=
  (List.range (m - 1)).foldl (fun acc i => acc + daysInMonth y (i + 1)) 0

/-- Day count of a calendar date from `0001-01-01` (day 0), matching
`datetime.date.toordinal() - 1`. -/
def dayNumber (y m d : ℕ) : ℤ :=
  365 * ((y : ℤ) - 1) + ((y - 1) / 4 : ℕ) - ((y - 1) / 100 : ℕ) + ((y - 1) / 400 : ℕ) +
    (daysBeforeMonth y m : ℤ) + ((d : ℤ) - 1)

/-- Parse and validate `[y1,y2,y3,y4]-[m1,m2]-[d1,d2]` digits into a date. -/
def parseDateDigits (y1 y2 y3 y4 m1 m2 d1 d2 : Char) : Option (ℕ × ℕ × ℕ) :=
  match digitVal y1, digitVal y2, digitVal y3, digitVal y4,
        digitVal m1, digitVal m2, digitVal d1, digitVal d2 with
  | some a, some b, some c, some d, some e, some f, some g, some h =>
    let year := 1000 * a + 100 * b + 10 * c + d
    let month := 10 * e + f
    let day := 10 * g + h
    if 1 ≤ year ∧ 1 ≤ month ∧ month ≤ 12 ∧ 1 ≤ day ∧ day ≤ daysInMonth year month then
      some (year, month, day)
    else none
  | _, _, _, _, _, _, _, _ => none

/-- Parse and validate `[h1,h2]:[n1,n2]:[s1,s2]` digits into a
time-of-day in seconds. -/
def parseTimeDigits (h1 h2 n1 n2 s1 s2 : Char) : Option ℕ :=
  match digitVal h1, digitVal h2, digitVal n1, digitVal n2, digitVal s1, digitVal s2 with
  | some a, some b, some c, some d, some e, some f =>
    let hour := 10 * a + b
    let minute := 10 * c + d
    let second := 10 * e + f
    if hour ≤ 23 ∧ minute ≤ 59 ∧ second ≤ 59 then
      some (3600 * hour + 60 * minute + second)
    else none
  | _, _, _, _, _, _ => none

/-- `MarketMatcher._parse_event_time` on the modelled grammar: seconds
from `0001-01-01 00:00:00`. -/
def parseEventTime (s : String) : Option ℤ :=
  match s.data with
  | [y1, y2, y3, y4, c1, m1, m2, c2, d1, d2] =>
    if c1 = '-' ∧ c2 = '-' then
      (parseDateDigits y1 y2 y3 y4 m1 m2 d1 d2).map fun (y, m, d) =>
        86400 * dayNumber y m d
    else none
  | [y1, y2, y3, y4, c1, m1, m2, c2, d1, d2, t, h1, h2, c3, n1, n2, c4, s1, s2] =>
    if c1 = '-' ∧ c2 = '-' ∧ t = 'T' ∧ c3 = ':' ∧ c4 = ':' then
      match parseDateDigits y1 y2 y3 y4 m1 m2 d1 d2, parseTimeDigits h1 h2 n1 n2 s1 s2 with
      | some (y, m, d), some tod => some (86400 * dayNumber y m d + tod)
      | _, _ => none
    else none
  | _ => none

/-- `MarketMatcher._compute_temporal_similarity`.  `days_apart` is
`abs((time_a - time_b).days)` where `timedelta.days` floors towards
negative infinity (`Int.fdiv`); a missing or empty event-time string, or a
parse failure, gives the neutral `0.5`. -/
def temporalSimilarity (maxDaysApart : ℕ) (a b : UnifiedMarket) : ℚ :=
  match a.event_time, b.event_time with
  | some sa, some sb =>
    if sa = "" ∨ sb = "" then 1/2
    else
      match parseEventTime sa, parseEventTime sb with
      | some ta, some tb =>
        let days_apart := ((ta - tb).fdiv 86400).natAbs
        if days_apart = 0 then 1
        else if days_apart ≤ maxDaysApart then 1 - (days_apart : ℚ) / (maxDaysApart : ℕ)
        else 0
      | _, _ => 1/2
  | _, _ => 1/2

/-! ## Matcher (`matcher.py`) -/

/-- `MatchResult` from `matcher.py`. -/
structure MatchResult where
  market_a : UnifiedMarket
  market_b : UnifiedMarket
  match_score : ℚ
  name_similarity : ℚ
  category_similarity : ℚ
  contract_similarity : ℚ
  temporal_proximity : ℚ
  matching_contracts : List (UnifiedContract × UnifiedContract) := []
  confidence : String := "unknown"
  notes : String := ""
  deriving Repr, DecidableEq

/-- `MarketMatcher` configuration state (defaults from `__init__`). -/
structure MarketMatcher where
  name_weight : ℚ := 2/5
  category_weight : ℚ := 1/5
  contract_weight : ℚ := 3/10
  temporal_weight : ℚ := 1/10
  min_score_threshold : ℚ := 1/2
  max_days_apart : ℕ := 7
  deriving Repr, DecidableEq

/-- `MarketMatcher.__init__`: raise `ValueError` exactly when the four
weights do not sum to 1 within the `0.01` tolerance; otherwise store the
weights unchanged (no renormalization). -/
def mkMarketMatcher (nw cw kw tw thr : ℚ) (maxDays : ℕ) : Except String MarketMatcher :=
  if 1/100 < |nw + cw + kw + tw - 1| then
    .error "Weights must sum to 1.0"
  else
    .ok { name_weight := nw, category_weight := cw, contract_weight := kw,
          temporal_weight := tw, min_score_threshold := thr, max_days_apart := maxDays }

/-- The weighted overall score of `find_matches` (lines 163–168). -/
def overallScore (m : MarketMatcher) (nameSim catSim contractSim temporalSim : ℚ) : ℚ :=
  m.name_weight * nameSim + m.category_weight * catSim +
    m.contract_weight * contractSim + m.temporal_weight * temporalSim

/-- `MarketMatcher._match_contracts`: every pair of contracts with fuzzy
name similarity above `0.6` and equal outcome type; a contract may appear
in several pairs. -/
def matchContracts (a b : UnifiedMarket) : List (UnifiedContract × UnifiedContract) :=
  a.contracts.flatMap fun ca =>
    b.contracts.filterMap fun cb =>
      if 3/5 < fuzzyMatch ca.name cb.name ∧ ca.outcome_type = cb.outcome_type then
        some (ca, cb)
      else none

/-- `MarketMatcher._compute_confidence` (the `total_contracts` argument is
accepted and ignored, as in the source). -/
def computeConfidence (overall nameSim : ℚ) (matchingCount _totalContracts : ℕ) : String :=
  if 4/5 < overall ∧ 7/10 < nameSim ∧ 0 < matchingCount then "high"
  else if 13/20 < overall ∨ (1/2 < overall ∧ 0 < matchingCount) then "medium"
  else "low"

/-- Placeholder market used only to give `List.getD` a default; every index
used below is in range. -/
def dummyMarket : UnifiedMarket := { source := "", market_id := "", name := "" }

/-- The index pairs `(i, j)` that survive the two `continue` filters of the
`find_matches` double loop: `within_same_list` skips `i ≥ j`, and
`cross_source_only` skips pairs with equal source tags. -/
def consideredPairs (marketsA marketsB : List UnifiedMarket)
    (withinSame crossOnly : Bool) : List (ℕ × ℕ) :=
  (List.range marketsA.length).flatMap fun i =>
    (List.range marketsB.length).filterMap fun j =>
      if withinSame ∧ j ≤ i then none
      else if crossOnly ∧ (marketsA.getD i dummyMarket).source = (marketsB.getD j dummyMarket).source then none
      else some (i, j)

/-- The match-scoring body of the `find_matches` loop for index pair
`(i, j)`: compute the four component scores — the corpus-relative TF-IDF
name similarity enters through the explicit `nameSim` matrix — filter by
`min_score_threshold`, and build the `MatchResult`. -/
def scorePair (m : MarketMatcher) (nameSim : ℕ → ℕ → ℚ)
    (marketsA marketsB : List UnifiedMarket) (i j : ℕ) : Option MatchResult :=
  let a := marketsA.getD i dummyMarket
  let b := marketsB.getD j dummyMarket
  let name_sim := nameSim i j
  let category_sim := categorySimilarity a b
  let contract_sim := contractSimilarity a b
  let temporal_sim := temporalSimilarity m.max_days_apart a b
  let overall := overallScore m name_sim category_sim contract_sim temporal_sim
  if overall < m.min_score_threshold then none
  else
    let matching := matchContracts a b
    some { market_a := a, market_b := b, match_score := overall,
           name_similarity := name_sim, category_similarity := category_sim,
           contract_similarity := contract_sim, temporal_proximity := temporal_sim,
           matching_contracts := matching,
           confidence := computeConfidence overall name_sim matching.length
             (max a.contracts.length b.contracts.length) }

/-- `MarketMatcher.find_matches`, with each emitted `MatchResult` tagged by
its index pair; results sorted descending by `match_score` (`list.sort` and
`List.mergeSort` are both stable). -/
def findMatchesIdx (m : MarketMatcher) (nameSim : ℕ → ℕ → ℚ)
    (marketsA marketsB : List UnifiedMarket) (withinSame crossOnly : Bool) :
    List (ℕ × ℕ × MatchResult) :=
  ((consideredPairs marketsA marketsB withinSame crossOnly).filterMap fun p =>
    (scorePair m nameSim marketsA marketsB p.1 p.2).map fun r => (p.1, p.2, r)).mergeSort
    fun x y => decide (y.2.2.match_score ≤ x.2.2.match_score)

/-- `MarketMatcher.find_matches` proper (the projection of
`findMatchesIdx`).  `withinSame` is true exactly when the Python call
omits `markets_b`. -/
def findMatchesWith (m : MarketMatcher) (nameSim : ℕ → ℕ → ℚ)
    (marketsA marketsB : List UnifiedMarket) (withinSame crossOnly : Bool) :
    List MatchResult :=
  (findMatchesIdx m nameSim marketsA marketsB withinSame crossOnly).map (·.2.2)

/-- `find_matches(markets)` with `markets_b` omitted. -/
def findMatchesSelf (m : MarketMatcher) (nameSim : ℕ → ℕ → ℚ)
    (markets : List UnifiedMarket) (crossOnly : Bool) : List MatchResult :=
  findMatchesWith m nameSim markets markets true crossOnly

/-- `MarketMatcher.find_matches` with its failure behaviour: the source
guards only against an empty name list (`if not all_names: return []`,
where `all_names = names_a + (names_b if not within_same_list else [])`)
before calling `self._vectorizer.fit_transform(all_names)`.  Modelled from
sklearn's documented fit behaviour: `TfidfVectorizer(analyzer="char",
ngram_range=(2,3))` raises `ValueError("empty vocabulary; ...")` exactly
when no document contributes a character 2- or 3-gram, i.e. when every
cleaned name is shorter than two characters; `find_matches` propagates
that exception.  On every other input the fit succeeds and the run is
`findMatchesWith`. -/
def findMatchesExc (m : MarketMatcher) (nameSim : ℕ → ℕ → ℚ)
    (marketsA marketsB : List UnifiedMarket) (withinSame crossOnly : Bool) :
    Except String (List MatchResult) :=
  let names_a := marketsA.map fun mk => cleanText mk.name
  let names_b := marketsB.map fun mk => cleanText mk.name
  let all_names := names_a ++ (if withinSame then [] else names_b)
  if all_names.isEmpty then .ok []
  else if all_names.all (fun s => (gramList s).isEmpty) then
    .error "empty vocabulary; perhaps the documents only contain stop words"
  else .ok (findMatchesWith m nameSim marketsA marketsB withinSame crossOnly)

/-- The name-similarity matrix produced by the TF-IDF fit when
`find_matches([a], [b], ...)` is called on exactly two markets: every
entry is the two-document cosine of the cleaned names. -/
def pairNameSim (a b : UnifiedMarket) : ℕ → ℕ → ℚ :=
  fun _ _ => tfidfPairSim (cleanText a.name) (cleanText b.name)

/-- `MarketMatcher.match_single_pair`: delegate to
`find_matches([market_a], [market_b], cross_source_only=False)` — the
TF-IDF path over the two-name corpus — and fall back to an all-zero
low-confidence result when nothing passes the score threshold. -/
def matchSinglePair (m : MarketMatcher) (a b : UnifiedMarket) : MatchResult :=
  match findMatchesWith m (pairNameSim a b) [a] [b] false false with
  | r :: _ => r
  | [] =>
    { market_a := a, market_b := b, match_score := 0, name_similarity := 0,
      category_similarity := 0, contract_similarity := 0, temporal_proximity := 0,
      matching_contracts := [], confidence := "low", notes := "No match found" }

/-! ## Trainable classifier (`matcher_classifier.py`)

The three features are exact rationals; the fitted scaler and logistic
model live in `ℝ`.  The L-BFGS solve performed by
`LogisticRegression.fit` (deterministic under the fixed seed) is an
external numeric routine, modelled as an explicit `LogisticSolver`
argument mapping the standardized feature rows and labels to coefficients
and intercept; every theorem below holds for all solver outputs.  The
returned metrics dictionary (accuracy / AUC / coefficients) is
presentation data and is not modelled. -/

/-- `MatcherClassifier._compute_time_diff`: absolute difference of the
civil dates (`datetime.date()` drops the time of day, so this is the exact
day difference of the two day numbers), with sentinel `365` when an event
time is missing, empty or unparseable. -/
def computeTimeDiff (a b : UnifiedMarket) : ℚ :=
  match a.event_time, b.event_time with
  | some sa, some sb =>
    if sa = "" ∨ sb = "" then 365
    else
      match parseEventTime sa, parseEventTime sb with
      | some ta, some tb => ((ta.fdiv 86400) - (tb.fdiv 86400)).natAbs
      | _, _ => 365
  | _, _ => 365

/-- `MatcherClassifier._compute_category_match`. -/
def computeCategoryMatch (a b : UnifiedMarket) : ℚ :=
  let ca := strLower (a.category.getD "")
  let cb := strLower (b.category.getD "")
  if ca = "" ∨ cb = "" then 0
  else if ca = cb then 1 else 0

/-- `MatcherClassifier.extract_features`: despite the "TF-IDF similarity"
docstring, the first feature is `matcher._fuzzy_match` on the two names. -/
def extractFeatures (a b : UnifiedMarket) : Fin 3 → ℚ :=
  ![fuzzyMatch a.name b.name, computeTimeDiff a b, computeCategoryMatch a b]

/-- The fitted scaler and logistic-regression state (`self.scaler`,
`self.model` after `fit`). -/
structure FittedState where
  mean : Fin 3 → ℝ
  scale : Fin 3 → ℝ
  coef : Fin 3 → ℝ
  intercept : ℝ

/-- `MatcherClassifier` state: `is_fitted` together with the fitted data
(absent on a fresh instance). -/
structure MatcherClassifier where
  fitted : Option FittedState := none

/-- A freshly constructed classifier (`__init__`: `is_fitted = False`). -/
def mkMatcherClassifier : MatcherClassifier := {}

/-- The external L-BFGS logistic-regression solve: standardized feature
rows and labels to (coefficients, intercept). -/
def LogisticSolver : Type :=
  List (Fin 3 → ℝ) → List Bool → (Fin 3 → ℝ) × ℝ

/-- `StandardScaler.fit`: per-column mean and standard deviation (a
zero-variance column gets scale 1, as sklearn does). -/
noncomputable def fitScaler (rows : List (Fin 3 → ℚ)) : (Fin 3 → ℝ) × (Fin 3 → ℝ) :=
  let n := rows.length
  let mean : Fin 3 → ℝ := fun j => ((rows.map fun r => ((r j : ℚ) : ℝ)).sum) / n
  let scale : Fin 3 → ℝ := fun j =>
    let v := ((rows.map fun r => (((r j : ℚ) : ℝ) - mean j) ^ 2).sum) / n
    if v = 0 then 1 else Real.sqrt v
  (mean, scale)

/-- The state produced by `MatcherClassifier.train`: feature extraction
over the concatenated positive and negative pairs, scaler fit, and the
logistic fit on the standardized rows. -/
noncomputable def trainedState (solver : LogisticSolver)
    (pos neg : List (UnifiedMarket × UnifiedMarket)) : FittedState :=
  let rows := (pos.map fun p => extractFeatures p.1 p.2) ++
    (neg.map fun p => extractFeatures p.1 p.2)
  let ms := fitScaler rows
  let scaled := rows.map fun r => fun j => (((r j : ℚ) : ℝ) - ms.1 j) / ms.2 j
  let labels := (pos.map fun _ => true) ++ (neg.map fun _ => false)
  let ci := solver scaled labels
  { mean := ms.1, scale := ms.2, coef := ci.1, intercept := ci.2 }

/-- `MatcherClassifier.train`: `np.vstack` on an empty pair list raises
(`need at least one array to concatenate`); otherwise the classifier
becomes fitted. -/
noncomputable def trainClassifier (solver : LogisticSolver)
    (pos neg : List (UnifiedMarket × UnifiedMarket)) : Except String MatcherClassifier :=
  if pos.isEmpty || neg.isEmpty then .error "need at least one array to concatenate"
  else .ok { fitted := some (trainedState solver pos neg) }

/-- The logistic sigmoid: `predict_proba` for the positive class. -/
noncomputable def sigmoid (z : ℝ) : ℝ := 1 / (1 + Real.exp (-z))

/-- `MatcherClassifier.predict`: `ValueError` when unfitted, otherwise the
positive-class probability of the standardized feature vector. -/
noncomputable def predictClassifier (c : MatcherClassifier) (a b : UnifiedMarket) :
    Except String ℝ :=
  match c.fitted with
  | none => .error "Classifier must be trained before making predictions. Call train() first."
  | some f =>
    .ok (sigmoid ((Finset.univ.sum fun j =>
      f.coef j * ((((extractFeatures a b j : ℚ) : ℝ) - f.mean j) / f.scale j)) + f.intercept))

/-- `MatcherClassifier.get_feature_importance`: `ValueError` when
unfitted, otherwise the normalized absolute coefficients. -/
noncomputable def getFeatureImportance (c : MatcherClassifier) :
    Except String (Fin 3 → ℝ) :=
  match c.fitted with
  | none => .error "Classifier must be trained first"
  | some f => .ok fun j => |f.coef j| / (Finset.univ.sum fun i => |f.coef i|)

/-- `MatcherClassifier.save`: `ValueError` before any byte is written when
unfitted; otherwise the pickled model-and-scaler blob, modelled as the
fitted state itself. -/
def saveClassifier (c : MatcherClassifier) : Except String FittedState :=
  match c.fitted with
  | none => .error "Cannot save unfitted classifier"
  | some f => .ok f

/-! ## Matched-pair persistence (`sql_storage.py`) -/

/-- Python string `<`: lexicographic comparison of code points (a strict
prefix is smaller). -/
def listLtChars : List Char → List Char → Bool
  | [], [] => false
  | [], _ :: _ => true
  | _ :: _, [] => false
  | x :: xs, y :: ys => if x < y then true else if y < x then false else listLtChars xs ys

/-- Python `str.__lt__`. -/
def strLt (a b : String) : Bool := listLtChars a.data b.data

/-- Python tuple `<` on `(source, market_id)` keys. -/
def keyLt (p q : String × String) : Bool :=
  strLt p.1 q.1 || (p.1 == q.1 && strLt p.2 q.2)

/-- The ordering step of `save_matched_pair` / `confirm_matched_pair`:
swap the two keys when the second is smaller, so the lexicographically
smaller key is stored first. -/
def canonicalKeys (pa pb : String × String) : (String × String) × (String × String) :=
  if keyLt pb pa then (pb, pa) else (pa, pb)

/-- The `filter_by` predicate of the `save_matched_pair` lookup. -/
def pairKeyIs (sa ma sb mb : String) (r : MatchedMarketPair) : Bool :=
  r.source_a == sa && r.market_id_a == ma && r.source_b == sb && r.market_id_b == mb

/-- Update the first element satisfying `p` in place (the row returned by
`one_or_none` when the uniqueness invariant holds). -/
def updateFirst (p : α → Bool) (f : α → α) : List α → List α
  | [] => []
  | x :: xs => if p x then f x :: xs else x :: updateFirst p f xs

/-- The field update applied by `save_matched_pair` to the found-or-new
row: score fields, notes, and `updated_at`. -/
def updatePairFields (similarity : ℚ)
    (classifier_probability name_similarity category_similarity temporal_proximity : Option ℚ)
    (notes : Option String) (now : ℕ) (r : MatchedMarketPair) : MatchedMarketPair :=
  { r with similarity := similarity, classifier_probability := classifier_probability,
           name_similarity := name_similarity, category_similarity := category_similarity,
           temporal_proximity := temporal_proximity, notes := notes, updated_at := now }

/-- `save_matched_pair`: canonicalize the argument order, then update the
existing row for the canonical key or insert a fresh one (`created_at` and
`updated_at` default to the current time on insert).  The table is the
list of rows; `now` stands for `datetime.utcnow()`. -/
def saveMatchedPair (now : ℕ) (source_a market_id_a source_b market_id_b : String)
    (similarity : ℚ)
    (classifier_probability name_similarity category_similarity temporal_proximity : Option ℚ)
    (notes : Option String) (db : List MatchedMarketPair) : List MatchedMarketPair :=
  let keys := canonicalKeys (source_a, market_id_a) (source_b, market_id_b)
  let upd := updatePairFields similarity classifier_probability name_similarity
    category_similarity temporal_proximity notes now
  match db.find? (pairKeyIs keys.1.1 keys.1.2 keys.2.1 keys.2.2) with
  | some _ => updateFirst (pairKeyIs keys.1.1 keys.1.2 keys.2.1 keys.2.2) upd db
  | none =>
    db ++ [upd { source_a := keys.1.1, market_id_a := keys.1.2,
                 source_b := keys.2.1, market_id_b := keys.2.2,
                 similarity := similarity, created_at := now, updated_at := now }]

/-- Number of rows for one canonical key tuple. -/
def countKey (sa ma sb mb : String) (db : List MatchedMarketPair) : ℕ :=
  (db.filter (pairKeyIs sa ma sb mb)).length

/-! ## Specification-side definitions

These follow the wording of the specification (not the source) and exist
only to be compared against the source-derived definitions above. -/

/-- Modelled from the spec: "each contract's effective price is its ask
price, falling back to the last-traded price only when the ask is
absent". -/
def specEffectivePrice (c : UnifiedContract) : Option ℚ :=
  match c.price_ask with
  | some a => some a
  | none => c.last_price

/-! ## Concrete inputs used by counterexamples and witnesses -/

/-- Market A of the spec's worked detector example: YES ask 0.40, NO ask
0.60. -/
def exYesA : UnifiedContract :=
  { source := "kalshi", market_id := "event-a", contract_id := "yes",
    name := "YES", side := "YES", outcome_type := "binary", price_ask := some (2/5) }

def exNoA : UnifiedContract :=
  { source := "kalshi", market_id := "event-a", contract_id := "no",
    name := "NO", side := "NO", outcome_type := "binary", price_ask := some (3/5) }

/-- Market B of the spec's worked detector example: YES ask 0.65, NO ask
0.30. -/
def exYesB : UnifiedContract :=
  { source := "polymarket", market_id := "event-b", contract_id := "yes",
    name := "YES", side := "YES", outcome_type := "binary", price_ask := some (13/20) }

def exNoB : UnifiedContract :=
  { source := "polymarket", market_id := "event-b", contract_id := "no",
    name := "NO", side := "NO", outcome_type := "binary", price_ask := some (3/10) }

def exMarketA : UnifiedMarket :=
  { source := "kalshi", market_id := "event-a", name := "Event A",
    category := some "test", contracts := [exYesA, exNoA] }

def exMarketB : UnifiedMarket :=
  { source := "polymarket", market_id := "event-b", name := "Event B (same as A)",
    category := some "test", contracts := [exYesB, exNoB] }

def exPair : MatchedMarketPair :=
  { source_a := "kalshi", market_id_a := "event-a",
    source_b := "polymarket", market_id_b := "event-b", similarity := 19/20 }

/-- A YES contract whose ask price is present and equal to `0` (and has no
last-traded fallback). -/
def zeroAskYesA : UnifiedContract :=
  { source := "kalshi", market_id := "event-a", contract_id := "yes",
    name := "YES", side := "YES", outcome_type := "binary", price_ask := some 0 }

/-- A matcher configuration accepted by the constructor whose weights sum
to 1 but include a negative weight. -/
def badWeightMatcher : MarketMatcher :=
  { name_weight := 2, category_weight := -1, contract_weight := 0, temporal_weight := 0 }

/-- Two markets whose cleaned names (`"ab"` and `"ba"`) share no character
2/3-gram but have fuzzy similarity 1/2; all other components score 1, so
the pair passes the default threshold. -/
def gramContractA : UnifiedContract :=
  { source := "kalshi", market_id := "g-a", contract_id := "yes",
    name := "YES", side := "YES", outcome_type := "binary" }

def gramContractB : UnifiedContract :=
  { source := "polymarket", market_id := "g-b", contract_id := "yes",
    name := "YES", side := "YES", outcome_type := "binary" }

def gramMarketA : UnifiedMarket :=
  { source := "kalshi", market_id := "g-a", name := "ab",
    event_time := some "2025-01-01", category := some "x",
    contracts := [gramContractA] }

def gramMarketB : UnifiedMarket :=
  { source := "polymarket", market_id := "g-b", name := "ba",
    event_time := some "2025-01-01", category := some "x",
    contracts := [gramContractB] }

/-- The match result produced for `gramMarketA` / `gramMarketB` by the
single-pair path: the TF-IDF name similarity is 0 (the cleaned names share
no gram), the other components are 1, so the overall score is
`1/5 + 3/10 + 1/10 = 3/5`. -/
def gramResult : MatchResult :=
  { market_a := gramMarketA, market_b := gramMarketB, match_score := 3/5,
    name_similarity := 0, category_similarity := 1, contract_similarity := 1,
    temporal_proximity := 1, matching_contracts := [(gramContractA, gramContractB)],
    confidence := "medium" }

/-- Two markets whose event times fall on the same calendar day 12 hours
apart, the earlier one first. -/
def sameDayMarketA : UnifiedMarket :=
  { source := "kalshi", market_id := "t-a", name := "T",
    event_time := some "2025-03-10T00:00:00" }

def sameDayMarketB : UnifiedMarket :=
  { source := "polymarket", market_id := "t-b", name := "T",
    event_time := some "2025-03-10T12:00:00" }

/-- A stored matched-pair row with the canonical key
`("a","1") ≤ ("b","2")`. -/
def exStoredPair : MatchedMarketPair :=
  { source_a := "a", market_id_a := "1", source_b := "b", market_id_b := "2",
    similarity := 1/2 }

/-- The worked-example opportunity: buy YES from A at 0.40 and NO from B
at 0.30. -/
def exOpp : ArbitrageOpportunity :=
  { source_a := "kalshi", market_id_a := "event-a",
    source_b := "polymarket", market_id_b := "event-b",
    yes_contract_a := exYesA, no_contract_a := exNoA,
    yes_contract_b := exYesB, no_contract_b := exNoB,
    profit_if_yes := 3/10, profit_if_no := 3/10,
    min_profit := 3/10, max_profit := 3/10,
    roi_pct := 300/7, total_investment := 7/10,
    match_similarity := 19/20, is_arbitrage := true, is_scalp := false,
    break_even_spread := 7/10 - 1, arbitrage_type := "both_sides",
    notes := "Buy YES at A, NO at B", matched_pair_id := none }

/-- A matcher with all constructor defaults. -/
def defaultMatcher : MarketMatcher := {}

/-- Two bare markets from different sources (no category, contracts or
event time), used to exercise the self-matching mode. -/
def selfMarketA : UnifiedMarket := { source := "kalshi", market_id := "s-a", name := "alpha" }

def selfMarketB : UnifiedMarket := { source := "polymarket", market_id := "s-b", name := "beta" }

/-- The match result produced for `selfMarketA` / `selfMarketB` under a
constant name-similarity matrix of 1: overall score
`2/5·1 + 1/5·(1/2) + 3/10·0 + 1/10·(1/2) = 11/20`. -/
def exSelfResult : MatchResult :=
  { market_a := selfMarketA, market_b := selfMarketB, match_score := 11/20,
    name_similarity := 1, category_similarity := 1/2, contract_similarity := 0,
    temporal_proximity := 1/2, matching_contracts := [], confidence := "low" }

/-- A trivial stand-in solver output used to instantiate the solver
parameter in concrete witnesses. -/
def zeroSolver : LogisticSolver := fun _ _ => (fun _ => 0, 0)

/-- Two markets whose single-character names clean to strings with no
character 2/3-gram, so the TF-IDF fit over their corpus has an empty
vocabulary. -/
def shortMarketA : UnifiedMarket := { source := "kalshi", market_id := "x-a", name := "a" }

def shortMarketB : UnifiedMarket := { source := "polymarket", market_id := "x-b", name := "b" }

/-! ## Theorems -/

theorem chooseLeg_fst (pa pb : ℚ) : (chooseLeg pa pb).1 = min pa pb := by
  unfold chooseLeg
  rw [min_def]
  split <;> rfl

theorem chooseLeg_of_le {pa pb : ℚ} (h : pa ≤ pb) : chooseLeg pa pb = (pa, "A") := by
  unfold chooseLeg
  rw [if_pos h]
theorem priceCheck_some_prices {ya na yb nb : UnifiedContract} {pya pna pyb pnb : ℚ}
    (h : priceCheck ya na yb nb = some (pya, pna, pyb, pnb)) :
    pyOr ya.price_ask ya.last_price = some pya ∧
    pyOr na.price_ask na.last_price = some pna ∧
    pyOr yb.price_ask yb.last_price = some pyb ∧
    pyOr nb.price_ask nb.last_price = some pnb ∧
    0 < pya ∧ pya ≤ 1 ∧ 0 < pna ∧ pna ≤ 1 ∧ 0 < pyb ∧ pyb ≤ 1 ∧ 0 < pnb ∧ pnb ≤ 1 := by
  unfold priceCheck at h
  split at h
  case _ v1 v2 v3 v4 h1 h2 h3 h4 =>
    split_ifs at h with hz hb
    rw [Option.some_inj] at h
    obtain ⟨e1, e2, e3, e4⟩ : v1 = pya ∧ v2 = pna ∧ v3 = pyb ∧ v4 = pnb := by
      simpa [Prod.ext_iff] using h
    subst e1; subst e2; subst e3; subst e4
    push_neg at hz
    obtain ⟨z1, z2, z3, z4⟩ := hz
    obtain ⟨b1, b2, b3, b4, b5, b6, b7, b8⟩ := hb
    exact ⟨h1, h2, h3, h4, lt_of_le_of_ne b1 (Ne.symm z1), b2,
      lt_of_le_of_ne b3 (Ne.symm z2), b4, lt_of_le_of_ne b5 (Ne.symm z3), b6,
      lt_of_le_of_ne b7 (Ne.symm z4), b8⟩
  case _ => exact Option.noConfusion h

theorem calcBothSides_some_fields {thr : ℚ} {pair : MatchedMarketPair}
    {ya na yb nb : UnifiedContract} {o : ArbitrageOpportunity}
    (h : calcBothSidesOpportunity thr pair ya na yb nb = some o) :
    ∃ pya pna pyb pnb : ℚ,
      priceCheck ya na yb nb = some (pya, pna, pyb, pnb) ∧
      o.total_investment = min pya pyb + min pna pnb ∧
      o.profit_if_yes = 1 - o.total_investment ∧
      o.profit_if_no = 1 - o.total_investment ∧
      o.min_profit = 1 - o.total_investment ∧
      o.max_profit = 1 - o.total_investment ∧
      thr ≤ o.min_profit ∧
      o.is_arbitrage = decide (1/1000 < o.min_profit) ∧
      o.is_scalp = false ∧
      o.arbitrage_type = (if o.is_arbitrage = true then "both_sides" else "hedge") ∧
      o.notes = "Buy YES at " ++ (chooseLeg pya pyb).2 ++ ", NO at " ++ (chooseLeg pna pnb).2 := by
  unfold calcBothSidesOpportunity at h
  rcases hpc : priceCheck ya na yb nb with _ | ⟨pya, pna, pyb, pnb⟩ <;> rw [hpc] at h
  · exact Option.noConfusion h
  simp only [] at h
  by_cases hthr : 1 - ((chooseLeg pya pyb).1 + (chooseLeg pna pnb).1) < thr
  · rw [if_pos hthr] at h
    exact Option.noConfusion h
  rw [if_neg hthr] at h
  rw [Option.some_inj] at h
  subst h
  refine ⟨pya, pna, pyb, pnb, rfl, ?_, rfl, rfl, rfl, rfl, ?_, rfl, rfl, rfl, rfl⟩
  · show (chooseLeg pya pyb).1 + (chooseLeg pna pnb).1 = min pya pyb + min pna pnb
    rw [chooseLeg_fst, chooseLeg_fst]
  · show thr ≤ 1 - ((chooseLeg pya pyb).1 + (chooseLeg pna pnb).1)
    exact not_lt.mp hthr

theorem mem_analyzePair {d : MarketsDict} {thr : ℚ} {pair : MatchedMarketPair}
    {o : ArbitrageOpportunity} (h : o ∈ analyzePair d thr pair) :
    ∃ ya na yb nb : UnifiedContract,
      calcBothSidesOpportunity thr pair ya na yb nb = some o := by
  unfold analyzePair at h
  split at h
  case _ ma mb =>
    split_ifs at h with hbin
    · split at h
      case _ ya na yb nb hxa hxb =>
        split at h
        case _ opp hc =>
          rw [List.mem_singleton] at h
          subst h
          exact ⟨ya, na, yb, nb, hc⟩
        case _ => simp at h
      case _ => simp at h
    · simp at h
  case _ => simp at h

theorem calc_example_eval :
    calcBothSidesOpportunity (1/100) exPair exYesA exNoA exYesB exNoB = some exOpp := by
  norm_num [calcBothSidesOpportunity, priceCheck, pyOr, chooseLeg,
    exPair, exYesA, exNoA, exYesB, exNoB, exOpp]
  all_goals rfl

/-- C1: whenever the both-sides calculation produces an opportunity from
four effective prices in `[0,1]`, the YES leg is the cheaper of the two
YES prices and the NO leg the cheaper of the two NO prices (a tie favours
market A), `total_investment` is their sum, and all four profit fields
equal `1 - total_investment`; on the worked example (YES 0.40 / NO 0.60
against YES 0.65 / NO 0.30) the result buys YES at A and NO at B with
total investment 0.70, profit 0.30, ROI 300/7 ≈ 42.857%,
`is_arbitrage = true` and `arbitrage_type = "both_sides"`. -/
theorem detector_cross_market_hedge :
    (∀ (thr : ℚ) (pair : MatchedMarketPair) (ya na yb nb : UnifiedContract)
      (pya pna pyb pnb : ℚ) (o : ArbitrageOpportunity),
      pyOr ya.price_ask ya.last_price = some pya →
      pyOr na.price_ask na.last_price = some pna →
      pyOr yb.price_ask yb.last_price = some pyb →
      pyOr nb.price_ask nb.last_price = some pnb →
      0 ≤ pya → pya ≤ 1 → 0 ≤ pna → pna ≤ 1 →
      0 ≤ pyb → pyb ≤ 1 → 0 ≤ pnb → pnb ≤ 1 →
      calcBothSidesOpportunity thr pair ya na yb nb = some o →
      o.total_investment = min pya pyb + min pna pnb ∧
      o.profit_if_yes = 1 - o.total_investment ∧
      o.profit_if_no = 1 - o.total_investment ∧
      o.min_profit = 1 - o.total_investment ∧
      o.max_profit = 1 - o.total_investment) ∧
    (∀ pa pb : ℚ, pa ≤ pb → chooseLeg pa pb = (pa, "A")) ∧
    calcBothSidesOpportunity (1/100) exPair exYesA exNoA exYesB exNoB = some exOpp := by
  refine ⟨?_, fun pa pb h => chooseLeg_of_le h, calc_example_eval⟩
  intro thr pair ya na yb nb pya pna pyb pnb o h1 h2 h3 h4 _ _ _ _ _ _ _ _ hcalc
  obtain ⟨qya, qna, qyb, qnb, hpc, ht, hy, hn, hmin, hmax, _, _, _, _, _⟩ :=
    calcBothSides_some_fields hcalc
  obtain ⟨g1, g2, g3, g4, -⟩ := priceCheck_some_prices hpc
  obtain rfl : qya = pya := Option.some_inj.mp (g1.symm.trans h1)
  obtain rfl : qna = pna := Option.some_inj.mp (g2.symm.trans h2)
  obtain rfl : qyb = pyb := Option.some_inj.mp (g3.symm.trans h3)
  obtain rfl : qnb = pnb := Option.some_inj.mp (g4.symm.trans h4)
  exact ⟨ht, hy, hn, hmin, hmax⟩

theorem detector_cross_market_hedge_witness :
    exOpp.total_investment = min ((2:ℚ)/5) (13/20) + min ((3:ℚ)/5) (3/10) ∧
    exOpp.profit_if_yes = 1 - exOpp.total_investment ∧
    exOpp.profit_if_no = 1 - exOpp.total_investment ∧
    exOpp.min_profit = 1 - exOpp.total_investment ∧
    exOpp.max_profit = 1 - exOpp.total_investment :=
  detector_cross_market_hedge.1 (1/100) exPair exYesA exNoA exYesB exNoB
    (2/5) (3/5) (13/20) (3/10) exOpp
    (by norm_num [pyOr, exYesA]) (by norm_num [pyOr, exNoA])
    (by norm_num [pyOr, exYesB]) (by norm_num [pyOr, exNoB])
    (by norm_num) (by norm_num) (by norm_num) (by norm_num)
    (by norm_num) (by norm_num) (by norm_num) (by norm_num)
    calc_example_eval

/-- C2 counterexample: a YES contract whose ask price is present and equal
to `0` has all four spec-side effective prices present and inside `[0,1]`,
yet the detector skips the pair (`0.0` is falsy for both the `or` fallback
and the `all(...)` presence check), and the fallback also fires on a zero
ask. -/
theorem effective_price_zero_skipped :
    specEffectivePrice zeroAskYesA = some 0 ∧
    specEffectivePrice exNoA = some (3/5) ∧
    specEffectivePrice exYesB = some (13/20) ∧
    specEffectivePrice exNoB = some (3/10) ∧
    ((0:ℚ) ≤ 0 ∧ (0:ℚ) ≤ 1) ∧ ((0:ℚ) ≤ 3/5 ∧ (3:ℚ)/5 ≤ 1) ∧
    ((0:ℚ) ≤ 13/20 ∧ (13:ℚ)/20 ≤ 1) ∧ ((0:ℚ) ≤ 3/10 ∧ (3:ℚ)/10 ≤ 1) ∧
    calcBothSidesOpportunity (1/100) exPair zeroAskYesA exNoA exYesB exNoB = none ∧
    pyOr (some 0) (some (1/2)) = some (1/2) := by
  norm_num [specEffectivePrice, calcBothSidesOpportunity, priceCheck, pyOr,
    zeroAskYesA, exNoA, exYesB, exNoB]

/-- C2 (amended): the effective price is `price_ask or last_price` with
Python truthiness — the fallback fires when the ask is absent *or zero* —
and the pair survives the price step exactly when every effective price is
present and lies in `(0, 1]`; a `none` from the price step propagates to
no opportunity. -/
theorem effective_price_skip_exact :
    (∀ ya na yb nb : UnifiedContract,
      (priceCheck ya na yb nb).isSome = true ↔
        ((∃ p, pyOr ya.price_ask ya.last_price = some p ∧ 0 < p ∧ p ≤ 1) ∧
         (∃ p, pyOr na.price_ask na.last_price = some p ∧ 0 < p ∧ p ≤ 1) ∧
         (∃ p, pyOr yb.price_ask yb.last_price = some p ∧ 0 < p ∧ p ≤ 1) ∧
         (∃ p, pyOr nb.price_ask nb.last_price = some p ∧ 0 < p ∧ p ≤ 1))) ∧
    (∀ l, pyOr none l = l) ∧
    (∀ l, pyOr (some 0) l = l) ∧
    (∀ (x : ℚ) l, x ≠ 0 → pyOr (some x) l = some x) ∧
    (∀ (thr : ℚ) (pair : MatchedMarketPair) (ya na yb nb : UnifiedContract),
      priceCheck ya na yb nb = none →
      calcBothSidesOpportunity thr pair ya na yb nb = none) := by
  refine ⟨?_, fun l => rfl, fun l => by simp [pyOr], fun x l hx => by simp [pyOr, hx], ?_⟩
  · intro ya na yb nb
    constructor
    · intro hs
      obtain ⟨⟨a, b, c, d⟩, ht⟩ := Option.isSome_iff_exists.mp hs
      obtain ⟨g1, g2, g3, g4, p1, q1, p2, q2, p3, q3, p4, q4⟩ := priceCheck_some_prices ht
      exact ⟨⟨a, g1, p1, q1⟩, ⟨b, g2, p2, q2⟩, ⟨c, g3, p3, q3⟩, ⟨d, g4, p4, q4⟩⟩
    · rintro ⟨⟨p1, e1, l1, u1⟩, ⟨p2, e2, l2, u2⟩, ⟨p3, e3, l3, u3⟩, ⟨p4, e4, l4, u4⟩⟩
      unfold priceCheck
      rw [e1, e2, e3, e4]
      show (if p1 = 0 ∨ p2 = 0 ∨ p3 = 0 ∨ p4 = 0 then none
        else if 0 ≤ p1 ∧ p1 ≤ 1 ∧ 0 ≤ p2 ∧ p2 ≤ 1 ∧ 0 ≤ p3 ∧ p3 ≤ 1 ∧ 0 ≤ p4 ∧ p4 ≤ 1 then
          some (p1, p2, p3, p4)
        else none).isSome = true
      rw [if_neg (by push_neg; exact ⟨l1.ne', l2.ne', l3.ne', l4.ne'⟩)]
      rw [if_pos ⟨l1.le, u1, l2.le, u2, l3.le, u3, l4.le, u4⟩]
      rfl
  · intro thr pair ya na yb nb hn
    unfold calcBothSidesOpportunity
    rw [hn]

theorem effective_price_skip_exact_witness :
    calcBothSidesOpportunity (1/2) exPair zeroAskYesA exNoA exYesB exNoB = none ∧
    pyOr (some (2/5 : ℚ)) (some (9/10)) = some (2/5) :=
  ⟨effective_price_skip_exact.2.2.2.2 (1/2) exPair zeroAskYesA exNoA exYesB exNoB
      (by norm_num [priceCheck, pyOr, zeroAskYesA, exNoA, exYesB, exNoB]),
    effective_price_skip_exact.2.2.2.1 (2/5) (some (9/10)) (by norm_num)⟩

/-- C10: every opportunity returned by `detect_opportunities` has the four
profit fields equal with `min_profit` at least the detector's threshold;
whenever the threshold exceeds the `0.001` rounding tolerance (as the
default `0.01` does), every returned opportunity is classified
`is_arbitrage = true`, `is_scalp = false`, `arbitrage_type =
"both_sides"`, so the "hedge" classification is unreachable. -/
theorem detector_output_always_arbitrage :
    ∀ (d : MarketsDict) (thr : ℚ) (pairs : List MatchedMarketPair)
      (o : ArbitrageOpportunity), o ∈ detectOpportunities d thr pairs →
      o.profit_if_yes = o.profit_if_no ∧
      o.min_profit = o.profit_if_yes ∧
      o.max_profit = o.profit_if_yes ∧
      thr ≤ o.min_profit ∧
      (1/1000 < thr →
        o.is_arbitrage = true ∧ o.is_scalp = false ∧ o.arbitrage_type = "both_sides") := by
  intro d thr pairs o ho
  unfold detectOpportunities at ho
  rw [List.mem_mergeSort] at ho
  obtain ⟨pair, _, hoa⟩ := List.mem_flatMap.mp ho
  obtain ⟨ya, na, yb, nb, hc⟩ := mem_analyzePair hoa
  obtain ⟨pya, pna, pyb, pnb, _, _, hy, hn, hmin, hmax, hthr, harb, hscalp, htype, _⟩ :=
    calcBothSides_some_fields hc
  refine ⟨by rw [hy, hn], by rw [hmin, hy], by rw [hmax, hy], hthr, ?_⟩
  intro hgt
  have harb' : o.is_arbitrage = true := by
    rw [harb, decide_eq_true_eq]
    exact lt_of_lt_of_le hgt hthr
  exact ⟨harb', hscalp, by rw [htype, if_pos harb']⟩

theorem detector_output_always_arbitrage_witness :
    exOpp.profit_if_yes = exOpp.profit_if_no ∧
    exOpp.min_profit = exOpp.profit_if_yes ∧
    exOpp.max_profit = exOpp.profit_if_yes ∧
    (1:ℚ)/100 ≤ exOpp.min_profit ∧
    ((1:ℚ)/1000 < 1/100 →
      exOpp.is_arbitrage = true ∧ exOpp.is_scalp = false ∧
      exOpp.arbitrage_type = "both_sides") :=
  detector_output_always_arbitrage
    (registerMarkets emptyMarketsDict [exMarketA, exMarketB]) (1/100) [exPair] exOpp
    (by
      have hd : detectOpportunities
          (registerMarkets emptyMarketsDict [exMarketA, exMarketB]) (1/100) [exPair] =
          [exOpp] := by
        have hA : registerMarkets emptyMarketsDict [exMarketA, exMarketB]
            (exPair.source_a, exPair.market_id_a) = some exMarketA := by
          simp [registerMarkets, emptyMarketsDict, exPair, exMarketA, exMarketB]
        have hB : registerMarkets emptyMarketsDict [exMarketA, exMarketB]
            (exPair.source_b, exPair.market_id_b) = some exMarketB := by
          simp [registerMarkets, emptyMarketsDict, exPair, exMarketA, exMarketB]
        have hbin : (isBinaryMarket exMarketA && isBinaryMarket exMarketB) = true := by decide
        have hxa : extractBinaryContracts exMarketA = (some exYesA, some exNoA) := rfl
        have hxb : extractBinaryContracts exMarketB = (some exYesB, some exNoB) := rfl
        have ha : analyzePair
            (registerMarkets emptyMarketsDict [exMarketA, exMarketB]) (1/100) exPair =
            [exOpp] := by
          simp only [analyzePair, hA, hB, hbin, hxa, hxb, calc_example_eval, if_true]
        unfold detectOpportunities
        rw [List.flatMap_cons, List.flatMap_nil, ha, List.append_nil,
          List.mergeSort_singleton]
      rw [hd]
      exact List.mem_singleton.mpr rfl)

/-- C5 counterexample: the constructor accepts weights `(2, -1, 0, 0)`
(they sum to exactly 1), yet component scores `(1, 0, 0, 0)` — all in
`[0,1]` — yield an overall score of `2`, outside `[0,1]`. -/
theorem overall_score_negative_weight_unbounded :
    mkMarketMatcher 2 (-1) 0 0 (1/2) 7 = .ok badWeightMatcher ∧
    (2 : ℚ) + (-1) + 0 + 0 = 1 ∧
    ((0:ℚ) ≤ 1 ∧ (1:ℚ) ≤ 1) ∧ ((0:ℚ) ≤ 0 ∧ (0:ℚ) ≤ 1) ∧
    overallScore badWeightMatcher 1 0 0 0 = 2 ∧
    ¬(overallScore badWeightMatcher 1 0 0 0 ≤ 1) := by
  norm_num [mkMarketMatcher, overallScore, badWeightMatcher]

/-- C5 (amended): for every *non-negative* weight configuration summing to
1 and component scores in `[0,1]`, the weighted overall score lies in
`[0,1]`. -/
theorem overall_score_bounded :
    ∀ (m : MarketMatcher) (n c k t : ℚ),
      0 ≤ m.name_weight → 0 ≤ m.category_weight →
      0 ≤ m.contract_weight → 0 ≤ m.temporal_weight →
      m.name_weight + m.category_weight + m.contract_weight + m.temporal_weight = 1 →
      0 ≤ n → n ≤ 1 → 0 ≤ c → c ≤ 1 → 0 ≤ k → k ≤ 1 → 0 ≤ t → t ≤ 1 →
      0 ≤ overallScore m n c k t ∧ overallScore m n c k t ≤ 1 := by
  intro m n c k t w1 w2 w3 w4 hsum n0 n1 c0 c1 k0 k1 t0 t1
  unfold overallScore
  constructor
  · exact add_nonneg (add_nonneg (add_nonneg (mul_nonneg w1 n0) (mul_nonneg w2 c0))
      (mul_nonneg w3 k0)) (mul_nonneg w4 t0)
  · have h1 : m.name_weight * n ≤ m.name_weight := mul_le_of_le_one_right w1 n1
    have h2 : m.category_weight * c ≤ m.category_weight := mul_le_of_le_one_right w2 c1
    have h3 : m.contract_weight * k ≤ m.contract_weight := mul_le_of_le_one_right w3 k1
    have h4 : m.temporal_weight * t ≤ m.temporal_weight := mul_le_of_le_one_right w4 t1
    linarith

theorem overall_score_bounded_witness :
    0 ≤ overallScore defaultMatcher (1/2) (1/2) (1/2) (1/2) ∧
    overallScore defaultMatcher (1/2) (1/2) (1/2) (1/2) ≤ 1 :=
  overall_score_bounded defaultMatcher (1/2) (1/2) (1/2) (1/2)
    (by norm_num [defaultMatcher]) (by norm_num [defaultMatcher])
    (by norm_num [defaultMatcher]) (by norm_num [defaultMatcher])
    (by norm_num [defaultMatcher]) (by norm_num) (by norm_num) (by norm_num)
    (by norm_num) (by norm_num) (by norm_num) (by norm_num) (by norm_num)

/-- C7 counterexample: the "no other inputs make matching fail" clause is
false.  On the non-empty inputs `[shortMarketA]`, `[shortMarketB]` (names
`"a"` and `"b"`, whose cleaned forms contain no character 2/3-gram) the
only guard before the TF-IDF fit (`if not all_names`) does not trigger and
the fit raises sklearn's empty-vocabulary `ValueError` — even though the
matcher itself was constructed successfully. -/
theorem matcher_empty_vocabulary_failure :
    ([shortMarketA] : List UnifiedMarket) ≠ [] ∧
    ([shortMarketB] : List UnifiedMarket) ≠ [] ∧
    mkMarketMatcher (2/5) (1/5) (3/10) (1/10) (1/2) 7 = .ok defaultMatcher ∧
    findMatchesExc defaultMatcher (pairNameSim shortMarketA shortMarketB)
      [shortMarketA] [shortMarketB] false false =
      .error "empty vocabulary; perhaps the documents only contain stop words" := by
  refine ⟨by simp, by simp, by norm_num [mkMarketMatcher, defaultMatcher], ?_⟩
  rfl

/-- C7 (amended): construction raises a configuration error exactly when
`|sum of weights - 1| > 0.01` and never renormalizes, and empty market
lists produce the empty result; but matching is *not* failure-free — it
fails exactly when the corpus of cleaned names is non-empty yet contains
no character 2/3-gram (sklearn's empty-vocabulary `ValueError`), and on
every other input it succeeds with the `findMatchesWith` result. -/
theorem matcher_config_error_and_fit_failure :
    (∀ (nw cw kw tw thr : ℚ) (maxDays : ℕ),
      (∃ e, mkMarketMatcher nw cw kw tw thr maxDays = .error e) ↔
        1/100 < |nw + cw + kw + tw - 1|) ∧
    (∀ (nw cw kw tw thr : ℚ) (maxDays : ℕ) (m : MarketMatcher),
      mkMarketMatcher nw cw kw tw thr maxDays = .ok m →
      m.name_weight = nw ∧ m.category_weight = cw ∧ m.contract_weight = kw ∧
      m.temporal_weight = tw ∧ m.min_score_threshold = thr ∧ m.max_days_apart = maxDays) ∧
    (∀ m nameSim withinSame crossOnly,
      findMatchesExc m nameSim [] [] withinSame crossOnly = .ok []) ∧
    (∀ (m : MarketMatcher) (nameSim : ℕ → ℕ → ℚ)
      (marketsA marketsB : List UnifiedMarket) (withinSame crossOnly : Bool),
      (∃ e, findMatchesExc m nameSim marketsA marketsB withinSame crossOnly = .error e) ↔
        ((marketsA.map fun mk => cleanText mk.name) ++
            (if withinSame then [] else marketsB.map fun mk => cleanText mk.name)) ≠ [] ∧
        (((marketsA.map fun mk => cleanText mk.name) ++
            (if withinSame then [] else marketsB.map fun mk => cleanText mk.name)).all
          fun s => (gramList s).isEmpty) = true) ∧
    (∀ (m : MarketMatcher) (nameSim : ℕ → ℕ → ℚ)
      (marketsA marketsB : List UnifiedMarket) (withinSame crossOnly : Bool)
      (l : List MatchResult),
      findMatchesExc m nameSim marketsA marketsB withinSame crossOnly = .ok l →
      l = findMatchesWith m nameSim marketsA marketsB withinSame crossOnly) := by
  refine ⟨?_, ?_, ?_, ?_, ?_⟩
  · intro nw cw kw tw thr maxDays
    unfold mkMarketMatcher
    split_ifs with h
    · exact ⟨fun _ => h, fun _ => ⟨_, rfl⟩⟩
    · constructor
      · rintro ⟨e, he⟩
        simp at he
      · intro hp
        exact absurd hp h
  · intro nw cw kw tw thr maxDays m hm
    unfold mkMarketMatcher at hm
    split_ifs at hm
    rw [Except.ok.injEq] at hm
    subst hm
    exact ⟨rfl, rfl, rfl, rfl, rfl, rfl⟩
  · intro m nameSim withinSame crossOnly
    cases withinSame <;> rfl
  · intro m nameSim marketsA marketsB withinSame crossOnly
    unfold findMatchesExc
    simp only []
    cases withinSame
    · rw [if_neg (show ¬((false : Bool) = true) by decide)]
      split_ifs with h1 h2
      · refine iff_of_false ?_ ?_
        · rintro ⟨e, he⟩
          simp at he
        · rintro ⟨hne, -⟩
          exact hne (List.isEmpty_iff.mp h1)
      · refine iff_of_true ⟨_, rfl⟩ ⟨?_, h2⟩
        intro hnil
        exact h1 (by simp [hnil])
      · refine iff_of_false ?_ ?_
        · rintro ⟨e, he⟩
          simp at he
        · rintro ⟨-, hall⟩
          exact h2 hall
    · rw [if_pos (show ((true : Bool) = true) from rfl)]
      split_ifs with h1 h2
      · refine iff_of_false ?_ ?_
        · rintro ⟨e, he⟩
          simp at he
        · rintro ⟨hne, -⟩
          exact hne (List.isEmpty_iff.mp h1)
      · refine iff_of_true ⟨_, rfl⟩ ⟨?_, h2⟩
        intro hnil
        exact h1 (by simp [hnil])
      · refine iff_of_false ?_ ?_
        · rintro ⟨e, he⟩
          simp at he
        · rintro ⟨-, hall⟩
          exact h2 hall
  · intro m nameSim marketsA marketsB withinSame crossOnly l hl
    unfold findMatchesExc at hl
    simp only [] at hl
    cases withinSame
    · rw [if_neg (show ¬((false : Bool) = true) by decide)] at hl
      split_ifs at hl with h1 h2
      · rw [Except.ok.injEq] at hl
        subst hl
        have h0 : ((marketsA.map fun mk => cleanText mk.name) ++
            (marketsB.map fun mk => cleanText mk.name)) = [] :=
          List.isEmpty_iff.mp h1
        obtain ⟨hA, -⟩ := List.append_eq_nil.mp h0
        have hA' : marketsA = [] := by
          rcases marketsA with _ | ⟨x, xs⟩
          · rfl
          · simp at hA
        subst hA'
        simp [findMatchesWith, findMatchesIdx, consideredPairs]
      · rw [Except.ok.injEq] at hl
        exact hl.symm
    · rw [if_pos (show ((true : Bool) = true) from rfl)] at hl
      split_ifs at hl with h1 h2
      · rw [Except.ok.injEq] at hl
        subst hl
        have h0 : ((marketsA.map fun mk => cleanText mk.name) ++ ([] : List String)) = [] :=
          List.isEmpty_iff.mp h1
        obtain ⟨hA, -⟩ := List.append_eq_nil.mp h0
        have hA' : marketsA = [] := by
          rcases marketsA with _ | ⟨x, xs⟩
          · rfl
          · simp at hA
        subst hA'
        simp [findMatchesWith, findMatchesIdx, consideredPairs]
      · rw [Except.ok.injEq] at hl
        exact hl.symm

theorem matcher_config_error_and_fit_failure_witness :
    (defaultMatcher.name_weight = 2/5 ∧ defaultMatcher.category_weight = 1/5 ∧
     defaultMatcher.contract_weight = 3/10 ∧ defaultMatcher.temporal_weight = 1/10 ∧
     defaultMatcher.min_score_threshold = 1/2 ∧ defaultMatcher.max_days_apart = 7) ∧
    ([] : List MatchResult) = findMatchesWith defaultMatcher (fun _ _ => 1) [] [] false false :=
  ⟨matcher_config_error_and_fit_failure.2.1 (2/5) (1/5) (3/10) (1/10) (1/2) 7 defaultMatcher
      (by norm_num [mkMarketMatcher, defaultMatcher]),
    matcher_config_error_and_fit_failure.2.2.2.2 defaultMatcher (fun _ _ => 1)
      [] [] false false [] rfl⟩

theorem scorePair_some {m : MarketMatcher} {nameSim : ℕ → ℕ → ℚ}
    {marketsA marketsB : List UnifiedMarket} {i j : ℕ} {r : MatchResult}
    (h : scorePair m nameSim marketsA marketsB i j = some r) :
    r.market_a = marketsA.getD i dummyMarket ∧
    r.market_b = marketsB.getD j dummyMarket ∧
    r.name_similarity = nameSim i j := by
  unfold scorePair at h
  simp only [] at h
  split_ifs at h
  rw [Option.some_inj] at h
  subst h
  exact ⟨rfl, rfl, rfl⟩

theorem mem_consideredPairs {marketsA marketsB : List UnifiedMarket}
    {withinSame crossOnly : Bool} {i j : ℕ}
    (h : (i, j) ∈ consideredPairs marketsA marketsB withinSame crossOnly) :
    i < marketsA.length ∧ j < marketsB.length ∧
    (withinSame = true → i < j) ∧
    (crossOnly = true →
      (marketsA.getD i dummyMarket).source ≠ (marketsB.getD j dummyMarket).source) := by
  unfold consideredPairs at h
  obtain ⟨i', hi', hj⟩ := List.mem_flatMap.mp h
  obtain ⟨j', hj', he⟩ := List.mem_filterMap.mp hj
  split_ifs at he with h1 h2
  rw [Option.some_inj, Prod.mk.injEq] at he
  obtain ⟨rfl, rfl⟩ := he
  refine ⟨List.mem_range.mp hi', List.mem_range.mp hj', ?_, ?_⟩
  · intro hw
    exact not_le.mp fun hle => h1 ⟨hw, hle⟩
  · intro hc heq
    exact h2 ⟨hc, heq⟩

theorem mem_findMatchesIdx {m : MarketMatcher} {nameSim : ℕ → ℕ → ℚ}
    {marketsA marketsB : List UnifiedMarket} {withinSame crossOnly : Bool}
    {i j : ℕ} {r : MatchResult}
    (h : (i, j, r) ∈ findMatchesIdx m nameSim marketsA marketsB withinSame crossOnly) :
    (i, j) ∈ consideredPairs marketsA marketsB withinSame crossOnly ∧
    scorePair m nameSim marketsA marketsB i j = some r := by
  unfold findMatchesIdx at h
  rw [List.mem_mergeSort] at h
  obtain ⟨⟨p1, p2⟩, hp, he⟩ := List.mem_filterMap.mp h
  rcases hs : scorePair m nameSim marketsA marketsB p1 p2 with _ | r0 <;> rw [hs] at he
  · exact absurd he (by simp)
  · have he' : (p1, p2, r0) = (i, j, r) := by simpa using he
    rw [Prod.mk.injEq, Prod.mk.injEq] at he'
    obtain ⟨rfl, rfl, rfl⟩ := he'
    exact ⟨hp, hs⟩

/-- C6: in self-matching mode every produced result comes from an index
pair `(i, j)` with `i < j` (no self-pair, and the pair of compared markets
is exactly the entries at `i` and `j`); the list of evaluated index pairs
has no duplicates (with `i < j` throughout, each unordered pair is
evaluated at most once); and with `cross_source_only` no result pairs two
markets with the same source tag. -/
theorem find_matches_no_self_pairs :
    (∀ (m : MarketMatcher) (nameSim : ℕ → ℕ → ℚ) (markets : List UnifiedMarket)
      (crossOnly : Bool) (i j : ℕ) (r : MatchResult),
      (i, j, r) ∈ findMatchesIdx m nameSim markets markets true crossOnly →
      i < j ∧ r.market_a = markets.getD i dummyMarket ∧
        r.market_b = markets.getD j dummyMarket) ∧
    (∀ (marketsA marketsB : List UnifiedMarket) (withinSame crossOnly : Bool),
      (consideredPairs marketsA marketsB withinSame crossOnly).Nodup) ∧
    (∀ (m : MarketMatcher) (nameSim : ℕ → ℕ → ℚ)
      (marketsA marketsB : List UnifiedMarket) (withinSame : Bool)
      (i j : ℕ) (r : MatchResult),
      (i, j, r) ∈ findMatchesIdx m nameSim marketsA marketsB withinSame true →
      r.market_a.source ≠ r.market_b.source) := by
  refine ⟨?_, ?_, ?_⟩
  · intro m nameSim markets crossOnly i j r h
    obtain ⟨hp, hs⟩ := mem_findMatchesIdx h
    obtain ⟨-, -, hij, -⟩ := mem_consideredPairs hp
    obtain ⟨ha, hb, -⟩ := scorePair_some hs
    exact ⟨hij rfl, ha, hb⟩
  · intro marketsA marketsB withinSame crossOnly
    unfold consideredPairs
    rw [List.nodup_flatMap]
    have hfst : ∀ (i : ℕ) (p : ℕ × ℕ),
        p ∈ (List.range marketsB.length).filterMap (fun j =>
          if withinSame = true ∧ j ≤ i then none
          else if crossOnly = true ∧ (marketsA.getD i dummyMarket).source =
              (marketsB.getD j dummyMarket).source then none
          else some (i, j)) → p.1 = i := by
      intro i p hp
      obtain ⟨j', _, he⟩ := List.mem_filterMap.mp hp
      split_ifs at he
      rw [Option.some_inj] at he
      rw [← he]
    constructor
    · intro i _
      refine List.Nodup.filterMap ?_ (List.nodup_range _)
      intro a a' b hb hb'
      split_ifs at hb hb' with hx1 hx2 hx3 hx4
      all_goals try exact Option.noConfusion hb
      all_goals try exact Option.noConfusion hb'
      rw [Option.mem_def, Option.some_inj] at hb hb'
      exact (Prod.ext_iff.mp (hb.trans hb'.symm)).2
    · refine List.Pairwise.imp ?_ (List.nodup_range marketsA.length)
      intro a b hab p hpa hpb
      exact hab ((hfst a p hpa).symm.trans (hfst b p hpb))
  · intro m nameSim marketsA marketsB withinSame i j r h
    obtain ⟨hp, hs⟩ := mem_findMatchesIdx h
    obtain ⟨-, -, -, hsrc⟩ := mem_consideredPairs hp
    obtain ⟨ha, hb, -⟩ := scorePair_some hs
    rw [ha, hb]
    exact hsrc rfl

theorem find_matches_no_self_pairs_witness :
    (0 : ℕ) < 1 ∧
    exSelfResult.market_a = [selfMarketA, selfMarketB].getD 0 dummyMarket ∧
    exSelfResult.market_b = [selfMarketA, selfMarketB].getD 1 dummyMarket :=
  find_matches_no_self_pairs.1 defaultMatcher (fun _ _ => 1)
    [selfMarketA, selfMarketB] true 0 1 exSelfResult
    (by
      have hcp : consideredPairs [selfMarketA, selfMarketB] [selfMarketA, selfMarketB]
          true true = [(0, 1)] := by decide
      have hsp : scorePair defaultMatcher (fun _ _ => 1)
          [selfMarketA, selfMarketB] [selfMarketA, selfMarketB] 0 1 = some exSelfResult := by
        norm_num [scorePair, defaultMatcher, categorySimilarity, contractSimilarity,
          temporalSimilarity, matchContracts, computeConfidence, overallScore,
          selfMarketA, selfMarketB, exSelfResult]
      unfold findMatchesIdx
      rw [hcp, List.filterMap_cons, List.filterMap_nil, hsp]
      simp [List.mergeSort_singleton])

theorem parseEventTime_ne_empty {s : String} {t : ℤ}
    (h : parseEventTime s = some t) : s ≠ "" := by
  intro he
  subst he
  exact Option.noConfusion h

theorem fdiv_day_eq_zero_iff (x : ℤ) : x.fdiv 86400 = 0 ↔ 0 ≤ x ∧ x < 86400 := by
  rw [Int.fdiv_eq_ediv _ (by norm_num)]
  constructor
  · intro h
    have hx := Int.ediv_add_emod x 86400
    rw [h, mul_zero, zero_add] at hx
    exact ⟨hx ▸ Int.emod_nonneg x (by norm_num), hx ▸ Int.emod_lt_of_pos x (by norm_num)⟩
  · rintro ⟨h1, h2⟩
    exact Int.ediv_eq_zero_of_lt h1 h2

theorem temporalSimilarity_parsed {maxDays : ℕ} {a b : UnifiedMarket}
    {sa sb : String} {ta tb : ℤ}
    (ha : a.event_time = some sa) (hb : b.event_time = some sb)
    (hpa : parseEventTime sa = some ta) (hpb : parseEventTime sb = some tb) :
    temporalSimilarity maxDays a b =
      (if ((ta - tb).fdiv 86400).natAbs = 0 then 1
       else if ((ta - tb).fdiv 86400).natAbs ≤ maxDays then
         1 - (((ta - tb).fdiv 86400).natAbs : ℚ) / (maxDays : ℕ)
       else 0) := by
  have hsa : sa ≠ "" := parseEventTime_ne_empty hpa
  have hsb : sb ≠ "" := parseEventTime_ne_empty hpb
  simp only [temporalSimilarity, ha, hb]
  rw [if_neg (by simp [hsa, hsb])]
  simp only [hpa, hpb]

/-- C4 counterexample: two event times on the same calendar day
(2025-03-10, 00:00 and 12:00, the earlier one in market A) parse
successfully and fall on the same civil day, yet the temporal score is
`6/7`, not `1.0`: `(time_a - time_b).days` is `floor(-12h / 24h) = -1`,
so `days_apart = 1`. -/
theorem temporal_same_day_not_one :
    (∃ ta tb : ℤ, parseEventTime "2025-03-10T00:00:00" = some ta ∧
      parseEventTime "2025-03-10T12:00:00" = some tb ∧
      ta.fdiv 86400 = tb.fdiv 86400) ∧
    sameDayMarketA.event_time = some "2025-03-10T00:00:00" ∧
    sameDayMarketB.event_time = some "2025-03-10T12:00:00" ∧
    temporalSimilarity 7 sameDayMarketA sameDayMarketB = 6/7 ∧
    (6:ℚ)/7 ≠ 1 := by
  refine ⟨⟨63877161600, 63877204800, by decide, by decide, by decide⟩, rfl, rfl, ?_, by norm_num⟩
  rw [temporalSimilarity_parsed rfl rfl
    (show parseEventTime "2025-03-10T00:00:00" = some 63877161600 by decide)
    (show parseEventTime "2025-03-10T12:00:00" = some 63877204800 by decide)]
  rw [show (((63877161600 - 63877204800 : ℤ)).fdiv 86400).natAbs = 1 by decide]
  norm_num

/-- C4 (amended): with both event times parsed, the score is `1.0` exactly
when `floor((t_a - t_b)/1 day) = 0`, i.e. when `t_a` is between 0 and 24
hours *after* `t_b` — two timestamps on the same calendar day with `t_a`
earlier get the decayed score instead; with
`d = |floor((t_a - t_b)/86400 s)|` in `[1, window]` the score is
`1 - d/window`, beyond the window it is `0.0`, and a missing or
unparseable event time gives the neutral `0.5`. -/
theorem temporal_decay_floor_days :
    (∀ (maxDays : ℕ) (a b : UnifiedMarket) (sa sb : String) (ta tb : ℤ),
      a.event_time = some sa → b.event_time = some sb →
      parseEventTime sa = some ta → parseEventTime sb = some tb →
      (temporalSimilarity maxDays a b = 1 ↔ 0 ≤ ta - tb ∧ ta - tb < 86400) ∧
      (1 ≤ ((ta - tb).fdiv 86400).natAbs → ((ta - tb).fdiv 86400).natAbs ≤ maxDays →
        temporalSimilarity maxDays a b =
          1 - (((ta - tb).fdiv 86400).natAbs : ℚ) / maxDays) ∧
      (maxDays < ((ta - tb).fdiv 86400).natAbs → temporalSimilarity maxDays a b = 0)) ∧
    (∀ (maxDays : ℕ) (a b : UnifiedMarket), a.event_time = none →
      temporalSimilarity maxDays a b = 1/2) ∧
    (∀ (maxDays : ℕ) (a b : UnifiedMarket), b.event_time = none →
      temporalSimilarity maxDays a b = 1/2) ∧
    (∀ (maxDays : ℕ) (a b : UnifiedMarket) (sa sb : String),
      a.event_time = some sa → b.event_time = some sb →
      parseEventTime sa = none ∨ parseEventTime sb = none →
      temporalSimilarity maxDays a b = 1/2) := by
  refine ⟨?_, ?_, ?_, ?_⟩
  · intro maxDays a b sa sb ta tb ha hb hpa hpb
    rw [temporalSimilarity_parsed ha hb hpa hpb]
    by_cases hd : ((ta - tb).fdiv 86400).natAbs = 0
    · rw [if_pos hd]
      have hft := (fdiv_day_eq_zero_iff (ta - tb)).mp (Int.natAbs_eq_zero.mp hd)
      refine ⟨⟨fun _ => hft, fun _ => rfl⟩, ?_, ?_⟩
      · intro h1
        exact absurd hd (by omega)
      · intro hlt
        exact absurd hd (by omega)
    · rw [if_neg hd]
      have hnz : ¬(0 ≤ ta - tb ∧ ta - tb < 86400) := fun hc =>
        hd (Int.natAbs_eq_zero.mpr ((fdiv_day_eq_zero_iff (ta - tb)).mpr hc))
      by_cases hle : ((ta - tb).fdiv 86400).natAbs ≤ maxDays
      · rw [if_pos hle]
        have hmpos : 0 < maxDays := by omega
        have hfrac : 0 < (((ta - tb).fdiv 86400).natAbs : ℚ) / maxDays := by
          apply div_pos <;> [exact_mod_cast Nat.pos_of_ne_zero hd; exact_mod_cast hmpos]
        refine ⟨⟨fun h1 => absurd h1 (by linarith), fun hc => absurd hc hnz⟩, ?_, ?_⟩
        · intro _ _
          rfl
        · intro hlt
          exact absurd hle (by omega)
      · rw [if_neg hle]
        refine ⟨⟨fun h0 => absurd h0 (by norm_num), fun hc => absurd hc hnz⟩, ?_, ?_⟩
        · intro _ hle'
          exact absurd hle' hle
        · intro _
          rfl
  · intro maxDays a b ha
    simp only [temporalSimilarity, ha]
  · intro maxDays a b hb
    rcases ha : a.event_time with _ | sa <;> simp only [temporalSimilarity, ha, hb]
  · intro maxDays a b sa sb ha hb hfail
    simp only [temporalSimilarity, ha, hb]
    by_cases hsa : sa = ""
    · rw [if_pos (Or.inl hsa)]
    by_cases hsb : sb = ""
    · rw [if_pos (Or.inr hsb)]
    rw [if_neg (by simp [hsa, hsb])]
    rcases hfail with hf | hf
    · rw [hf]
    · rw [hf]
      rcases hq : parseEventTime sa with _ | ta <;> rfl

theorem temporal_decay_floor_days_witness :
    temporalSimilarity 7 gramMarketA gramMarketB = 1 :=
  ((temporal_decay_floor_days.1 7 gramMarketA gramMarketB "2025-01-01" "2025-01-01"
      63871286400 63871286400 rfl rfl (by decide) (by decide)).1).mpr (by decide)

theorem mem_findMatchesWith {m : MarketMatcher} {nameSim : ℕ → ℕ → ℚ}
    {marketsA marketsB : List UnifiedMarket} {withinSame crossOnly : Bool} {r : MatchResult}
    (h : r ∈ findMatchesWith m nameSim marketsA marketsB withinSame crossOnly) :
    ∃ i j, (i, j, r) ∈ findMatchesIdx m nameSim marketsA marketsB withinSame crossOnly := by
  unfold findMatchesWith at h
  obtain ⟨⟨i, j, r'⟩, hm, he⟩ := List.mem_map.mp h
  subst he
  exact ⟨i, j, hm⟩

theorem fuzzyMatch_ab_ba : fuzzyMatch "ab" "ba" = 1/2 := by
  have h1 : cleanText "ab" = "ab" := by decide
  have h2 : cleanText "ba" = "ba" := by decide
  have h3 : seqMatchTotal ['a', 'b'] ['b', 'a'] = 1 := by decide
  unfold fuzzyMatch
  rw [h1, h2]
  show difflibScore ['a', 'b'] ['b', 'a'] = 1/2
  unfold difflibScore
  rw [h3]
  norm_num

theorem tfidf_ab_ba : tfidfPairSim (cleanText "ab") (cleanText "ba") = 0 := by
  have h1 : cleanText "ab" = "ab" := by decide
  have h2 : cleanText "ba" = "ba" := by decide
  rw [h1, h2]
  unfold tfidfPairSim
  rw [if_neg (by decide), if_neg (by decide), if_pos (by decide)]

theorem scorePair_gram_eval :
    scorePair defaultMatcher (pairNameSim gramMarketA gramMarketB)
      [gramMarketA] [gramMarketB] 0 0 = some gramResult := by
  have hcat : categorySimilarity gramMarketA gramMarketB = 1 := by
    unfold categorySimilarity
    rw [show gramMarketA.category.getD "" = "x" from rfl,
      show gramMarketB.category.getD "" = "x" from rfl]
    rw [if_neg (by decide), if_pos rfl]
  have hcon : contractSimilarity gramMarketA gramMarketB = 1 := by
    norm_num [contractSimilarity, gramMarketA, gramMarketB, gramContractA, gramContractB,
      List.toFinset_cons, List.toFinset_nil, Finset.union_self, Finset.inter_self,
      Finset.card_singleton]
  have htmp : temporalSimilarity 7 gramMarketA gramMarketB = 1 := by
    rw [@temporalSimilarity_parsed 7 gramMarketA gramMarketB "2025-01-01" "2025-01-01"
      63871286400 63871286400 rfl rfl (by decide) (by decide)]
    rw [if_pos (by decide)]
  have hfm : fuzzyMatch "YES" "YES" = 1 := by
    have hc : cleanText "YES" = "yes" := by decide
    have hs : seqMatchTotal ['y', 'e', 's'] ['y', 'e', 's'] = 3 := by decide
    unfold fuzzyMatch
    rw [hc]
    show difflibScore ['y', 'e', 's'] ['y', 'e', 's'] = 1
    unfold difflibScore
    rw [hs]
    norm_num
  have hmc : matchContracts gramMarketA gramMarketB = [(gramContractA, gramContractB)] := by
    show ([gramContractA].flatMap fun ca => [gramContractB].filterMap fun cb =>
      if 3/5 < fuzzyMatch ca.name cb.name ∧ ca.outcome_type = cb.outcome_type then
        some (ca, cb) else none) = [(gramContractA, gramContractB)]
    rw [List.flatMap_cons, List.flatMap_nil, List.filterMap_cons, List.filterMap_nil]
    rw [if_pos ⟨by rw [show gramContractA.name = "YES" from rfl,
        show gramContractB.name = "YES" from rfl, hfm]; norm_num, rfl⟩]
    rfl
  have hname : pairNameSim gramMarketA gramMarketB 0 0 = 0 := by
    show tfidfPairSim (cleanText gramMarketA.name) (cleanText gramMarketB.name) = 0
    exact tfidf_ab_ba
  unfold scorePair
  simp only []
  rw [show ([gramMarketA].getD 0 dummyMarket) = gramMarketA from rfl,
    show ([gramMarketB].getD 0 dummyMarket) = gramMarketB from rfl,
    hname, hcat, hcon]
  rw [show defaultMatcher.max_days_apart = 7 from rfl, htmp]
  rw [show overallScore defaultMatcher 0 1 1 1 = 3/5 by norm_num [overallScore, defaultMatcher]]
  rw [if_neg (by norm_num [defaultMatcher])]
  rw [hmc]
  rw [show computeConfidence (3/5) 0 [(gramContractA, gramContractB)].length
      (gramMarketA.contracts.length ⊔ gramMarketB.contracts.length) = "medium" by
    norm_num [computeConfidence]]
  rfl

/-- C3 counterexample: on markets named `"ab"` and `"ba"` (same category,
one binary contract each, same event day) the single-pair result *is*
produced (overall score `3/5` passes the default threshold), and its
`name_similarity` is the TF-IDF cosine `0` — not the `SequenceMatcher`
ratio `1/2` of the cleaned names. -/
theorem single_pair_name_not_fuzzy :
    (matchSinglePair defaultMatcher gramMarketA gramMarketB).name_similarity = 0 ∧
    fuzzyMatch gramMarketA.name gramMarketB.name = 1/2 ∧
    (0 : ℚ) ≠ 1/2 := by
  refine ⟨?_, fuzzyMatch_ab_ba, by norm_num⟩
  have hcp : consideredPairs [gramMarketA] [gramMarketB] false false = [(0, 0)] := by decide
  have hidx : findMatchesIdx defaultMatcher (pairNameSim gramMarketA gramMarketB)
      [gramMarketA] [gramMarketB] false false = [(0, 0, gramResult)] := by
    unfold findMatchesIdx
    rw [hcp, List.filterMap_cons, List.filterMap_nil, scorePair_gram_eval]
    simp [List.mergeSort_singleton]
  unfold matchSinglePair
  rw [show findMatchesWith defaultMatcher (pairNameSim gramMarketA gramMarketB)
      [gramMarketA] [gramMarketB] false false = [gramResult] by
    unfold findMatchesWith; rw [hidx]; rfl]
  rfl

/-- C3 (amended): `match_single_pair` routes through `find_matches` on the
two singleton lists, so its `name_similarity` is the corpus-of-two TF-IDF
cosine of the cleaned names (or the literal `0` of the fallback result
when nothing passes the score threshold) — not the `SequenceMatcher`
fuzzy ratio; and the TF-IDF cosine is `0` whenever the cleaned names share
no character 2/3-gram, where the fuzzy ratio can be positive. -/
theorem single_pair_uses_tfidf :
    (∀ (m : MarketMatcher) (a b : UnifiedMarket),
      (matchSinglePair m a b).name_similarity =
        tfidfPairSim (cleanText a.name) (cleanText b.name) ∨
      (matchSinglePair m a b).name_similarity = 0) ∧
    (∀ s t : String, gramList s ≠ [] → (∀ g ∈ gramList s, g ∉ gramList t) →
      tfidfPairSim s t = 0) := by
  constructor
  · intro m a b
    unfold matchSinglePair
    rcases hfm : findMatchesWith m (pairNameSim a b) [a] [b] false false with _ | ⟨r, rest⟩
    · right
      rfl
    · left
      have hr : r ∈ findMatchesWith m (pairNameSim a b) [a] [b] false false := by
        rw [hfm]
        exact List.mem_cons_self r rest
      obtain ⟨i, j, hij⟩ := mem_findMatchesWith hr
      obtain ⟨-, hs⟩ := mem_findMatchesIdx hij
      obtain ⟨-, -, hname⟩ := scorePair_some hs
      show r.name_similarity = _
      rw [hname]
      rfl
  · intro s t hs hdisj
    unfold tfidfPairSim
    by_cases ht : gramList t = []
    · rw [if_pos (Or.inr ht)]
    · rw [if_neg (by simp [hs, ht])]
      have hperm : ¬ (gramList s).Perm (gramList t) := by
        intro hp
        obtain ⟨g, hg⟩ := List.exists_mem_of_ne_nil _ hs
        exact hdisj g hg (hp.mem_iff.mp hg)
      rw [if_neg hperm]
      have hsw : sharedWeight s t = 0 := by
        unfold sharedWeight
        apply List.sum_eq_zero
        intro x hx
        obtain ⟨g, hg, hge⟩ := List.mem_map.mp hx
        have hz : gramCount t g = 0 :=
          List.count_eq_zero.mpr (hdisj g (List.mem_dedup.mp hg))
        rw [← hge, hz, mul_zero]
      rw [if_pos hsw]

theorem single_pair_uses_tfidf_witness :
    tfidfPairSim "ab" "ba" = 0 ∧
    ((matchSinglePair defaultMatcher gramMarketA gramMarketB).name_similarity =
        tfidfPairSim (cleanText gramMarketA.name) (cleanText gramMarketB.name) ∨
      (matchSinglePair defaultMatcher gramMarketA gramMarketB).name_similarity = 0) :=
  ⟨single_pair_uses_tfidf.2 "ab" "ba" (by decide) (by decide),
    single_pair_uses_tfidf.1 defaultMatcher gramMarketA gramMarketB⟩

theorem sigmoid_nonneg (z : ℝ) : 0 ≤ sigmoid z := by
  unfold sigmoid
  have he : 0 < Real.exp (-z) := Real.exp_pos _
  positivity

theorem sigmoid_le_one (z : ℝ) : sigmoid z ≤ 1 := by
  unfold sigmoid
  have he : 0 < Real.exp (-z) := Real.exp_pos _
  rw [div_le_one (by linarith)]
  linarith

/-- C8: `predict`, `get_feature_importance` and `save` all fail on an
untrained classifier (and `save` produces no partial output — the model
state is untouched); after a successful `train` on at least one positive
and one negative pair (for any solver output), `predict` succeeds and
returns a probability in `[0,1]`. -/
theorem classifier_untrained_errors :
    (∀ a b, ∃ e, predictClassifier mkMatcherClassifier a b = .error e) ∧
    (∃ e, getFeatureImportance mkMatcherClassifier = .error e) ∧
    (∃ e, saveClassifier mkMatcherClassifier = .error e) ∧
    (∀ (solver : LogisticSolver) (pos neg : List (UnifiedMarket × UnifiedMarket)),
      pos ≠ [] → neg ≠ [] →
      ∃ c, trainClassifier solver pos neg = .ok c ∧
        ∀ a b, ∃ p, predictClassifier c a b = .ok p ∧ 0 ≤ p ∧ p ≤ 1) := by
  refine ⟨fun a b => ⟨_, rfl⟩, ⟨_, rfl⟩, ⟨_, rfl⟩, ?_⟩
  intro solver pos neg hp hn
  refine ⟨⟨some (trainedState solver pos neg)⟩, ?_, ?_⟩
  · unfold trainClassifier
    rw [if_neg (by simp [List.isEmpty_iff, hp, hn])]
  · intro a b
    exact ⟨_, rfl, sigmoid_nonneg _, sigmoid_le_one _⟩

theorem classifier_untrained_errors_witness :
    ∃ c, trainClassifier zeroSolver [(selfMarketA, selfMarketB)]
        [(selfMarketA, selfMarketA)] = .ok c ∧
      ∀ a b, ∃ p, predictClassifier c a b = .ok p ∧ 0 ≤ p ∧ p ≤ 1 :=
  classifier_untrained_errors.2.2.2 zeroSolver [(selfMarketA, selfMarketB)]
    [(selfMarketA, selfMarketA)] (by simp) (by simp)

theorem listLtChars_asymm : ∀ {a b : List Char},
    listLtChars a b = true → listLtChars b a = false := by
  intro a
  induction a with
  | nil =>
    intro b h
    cases b with
    | nil => exact absurd h (by simp [listLtChars])
    | cons y ys => rfl
  | cons x xs ih =>
    intro b h
    cases b with
    | nil => exact absurd h (by simp [listLtChars])
    | cons y ys =>
      unfold listLtChars at h ⊢
      by_cases hxy : x < y
      · rw [if_neg (asymm hxy), if_pos hxy]
      · by_cases hyx : y < x
        · rw [if_neg hxy, if_pos hyx] at h
          exact absurd h (by simp)
        · rw [if_neg hxy, if_neg hyx] at h
          rw [if_neg hyx, if_neg hxy]
          exact ih h

theorem listLtChars_irrefl (a : List Char) : listLtChars a a = false := by
  by_cases h : listLtChars a a = true
  · exact absurd (listLtChars_asymm h) (by simp [h])
  · simpa using h

theorem listLtChars_connex : ∀ {a b : List Char},
    listLtChars a b = false → listLtChars b a = false → a = b := by
  intro a
  induction a with
  | nil =>
    intro b h1 _
    cases b with
    | nil => rfl
    | cons y ys => exact absurd h1 (by simp [listLtChars])
  | cons x xs ih =>
    intro b h1 h2
    cases b with
    | nil => exact absurd h2 (by simp [listLtChars])
    | cons y ys =>
      unfold listLtChars at h1 h2
      by_cases hxy : x < y
      · rw [if_pos hxy] at h1
        exact absurd h1 (by simp)
      · by_cases hyx : y < x
        · rw [if_pos hyx] at h2
          exact absurd h2 (by simp)
        · have hx : x = y := le_antisymm (not_lt.mp hyx) (not_lt.mp hxy)
          rw [if_neg hxy, if_neg hyx] at h1
          rw [if_neg hyx, if_neg hxy] at h2
          rw [hx, ih h1 h2]

theorem strLt_asymm {a b : String} (h : strLt a b = true) : strLt b a = false :=
  listLtChars_asymm h

theorem strLt_irrefl (a : String) : strLt a a = false :=
  listLtChars_irrefl a.data

theorem strLt_connex {a b : String} (h1 : strLt a b = false) (h2 : strLt b a = false) :
    a = b :=
  String.ext (listLtChars_connex h1 h2)

theorem keyLt_asymm {p q : String × String} (h : keyLt p q = true) : keyLt q p = false := by
  unfold keyLt at h ⊢
  rw [Bool.or_eq_true] at h
  rcases h with h1 | h2
  · rw [Bool.or_eq_false_iff]
    refine ⟨strLt_asymm h1, ?_⟩
    by_cases he : q.1 = p.1
    · rw [he] at h1
      rw [strLt_irrefl] at h1
      exact absurd h1 (by simp)
    · rw [Bool.and_eq_false_iff]
      exact Or.inl (by simpa using he)
  · rw [Bool.and_eq_true] at h2
    obtain ⟨he, hlt⟩ := h2
    have he' : p.1 = q.1 := by simpa using he
    rw [Bool.or_eq_false_iff]
    refine ⟨by rw [← he', strLt_irrefl], ?_⟩
    rw [Bool.and_eq_false_iff]
    exact Or.inr (strLt_asymm hlt)

theorem keyLt_connex {p q : String × String}
    (h1 : keyLt p q = false) (h2 : keyLt q p = false) : p = q := by
  unfold keyLt at h1 h2
  rw [Bool.or_eq_false_iff] at h1 h2
  obtain ⟨ha1, hb1⟩ := h1
  obtain ⟨ha2, hb2⟩ := h2
  have he : p.1 = q.1 := strLt_connex ha1 ha2
  rw [Bool.and_eq_false_iff] at hb1 hb2
  have hs1 : strLt p.2 q.2 = false := by
    rcases hb1 with hb | hb
    · exact absurd (by simpa using he) (by simpa using hb)
    · exact hb
  have hs2 : strLt q.2 p.2 = false := by
    rcases hb2 with hb | hb
    · exact absurd (by simpa using he.symm) (by simpa using hb)
    · exact hb
  exact Prod.ext he (strLt_connex hs1 hs2)

theorem canonicalKeys_comm (pa pb : String × String) :
    canonicalKeys pa pb = canonicalKeys pb pa := by
  unfold canonicalKeys
  by_cases h1 : keyLt pb pa = true
  · rw [if_pos h1, if_neg (by rw [keyLt_asymm h1]; simp)]
  · have h1' : keyLt pb pa = false := by simpa using h1
    by_cases h2 : keyLt pa pb = true
    · rw [if_neg h1, if_pos h2]
    · have h2' : keyLt pa pb = false := by simpa using h2
      rw [if_neg h1, if_neg h2, keyLt_connex h2' h1']

theorem canonicalKeys_ordered (pa pb : String × String) :
    keyLt (canonicalKeys pa pb).2 (canonicalKeys pa pb).1 = false := by
  unfold canonicalKeys
  by_cases h : keyLt pb pa = true
  · rw [if_pos h]
    exact keyLt_asymm h
  · rw [if_neg h]
    simpa using h

theorem length_updateFirst (p : α → Bool) (f : α → α) :
    ∀ l : List α, (updateFirst p f l).length = l.length := by
  intro l
  induction l with
  | nil => rfl
  | cons x xs ih =>
    unfold updateFirst
    split_ifs <;> simp [ih]

theorem filter_length_updateFirst (p q : α → Bool) (f : α → α)
    (hq : ∀ x, q (f x) = q x) :
    ∀ l : List α, ((updateFirst p f l).filter q).length = (l.filter q).length := by
  intro l
  induction l with
  | nil => rfl
  | cons x xs ih =>
    unfold updateFirst
    split_ifs with hp
    · rw [List.filter_cons, List.filter_cons, hq x]
      split_ifs <;> simp [ih]
    · rw [List.filter_cons, List.filter_cons]
      split_ifs <;> simp [ih]

theorem updateFirst_mem {p : α → Bool} {f : α → α} :
    ∀ {l : List α} {x : α}, l.find? p = some x → f x ∈ updateFirst p f l := by
  intro l
  induction l with
  | nil => intro x h; exact absurd h (by simp)
  | cons y ys ih =>
    intro x h
    unfold updateFirst
    by_cases hp : p y = true
    · rw [List.find?_cons_of_pos _ hp, Option.some_inj] at h
      subst h
      rw [if_pos hp]
      exact List.mem_cons_self _ _
    · rw [List.find?_cons_of_neg _ (by simpa using hp)] at h
      rw [if_neg hp]
      exact List.mem_cons_of_mem _ (ih h)

/-- C9: `save_matched_pair` canonicalizes its argument order — saving
`(A, B)` and saving `(B, A)` produce identical tables, with the
lexicographically smaller `(source, market_id)` key stored first — and an
already-stored canonical key is updated in place (same table length, the
row's score fields and `updated_at` replaced), so the at-most-one-row-per-
canonical-key invariant is preserved by every save. -/
theorem save_matched_pair_canonical :
    (∀ (now : ℕ) (sa ma sb mb : String) (sim : ℚ) (cp ns cs tp : Option ℚ)
      (notes : Option String) (db : List MatchedMarketPair),
      saveMatchedPair now sa ma sb mb sim cp ns cs tp notes db =
        saveMatchedPair now sb mb sa ma sim cp ns cs tp notes db) ∧
    (∀ pa pb : String × String,
      keyLt (canonicalKeys pa pb).2 (canonicalKeys pa pb).1 = false) ∧
    (∀ (now : ℕ) (sa ma sb mb : String) (sim : ℚ) (cp ns cs tp : Option ℚ)
      (notes : Option String) (db : List MatchedMarketPair)
      (k : (String × String) × (String × String)),
      k = canonicalKeys (sa, ma) (sb, mb) →
      (db.find? (pairKeyIs k.1.1 k.1.2 k.2.1 k.2.2)).isSome = true →
      (saveMatchedPair now sa ma sb mb sim cp ns cs tp notes db).length = db.length ∧
      ∃ r ∈ saveMatchedPair now sa ma sb mb sim cp ns cs tp notes db,
        pairKeyIs k.1.1 k.1.2 k.2.1 k.2.2 r = true ∧
        r.similarity = sim ∧ r.classifier_probability = cp ∧
        r.name_similarity = ns ∧ r.category_similarity = cs ∧
        r.temporal_proximity = tp ∧ r.notes = notes ∧ r.updated_at = now) ∧
    (∀ (now : ℕ) (sa ma sb mb : String) (sim : ℚ) (cp ns cs tp : Option ℚ)
      (notes : Option String) (db : List MatchedMarketPair),
      (∀ qa qb qc qd, countKey qa qb qc qd db ≤ 1) →
      ∀ qa qb qc qd,
        countKey qa qb qc qd (saveMatchedPair now sa ma sb mb sim cp ns cs tp notes db) ≤ 1) := by
  refine ⟨?_, canonicalKeys_ordered, ?_, ?_⟩
  · intro now sa ma sb mb sim cp ns cs tp notes db
    unfold saveMatchedPair
    rw [canonicalKeys_comm (sb, mb) (sa, ma)]
  · intro now sa ma sb mb sim cp ns cs tp notes db k hk hfind
    unfold saveMatchedPair
    rw [← hk]
    simp only []
    rcases hfx : db.find? (pairKeyIs k.1.1 k.1.2 k.2.1 k.2.2) with _ | x
    · rw [hfx] at hfind
      exact absurd hfind (by simp)
    · constructor
      · exact length_updateFirst _ _ db
      · refine ⟨updatePairFields sim cp ns cs tp notes now x, updateFirst_mem hfx, ?_,
          rfl, rfl, rfl, rfl, rfl, rfl, rfl⟩
        have hpres : pairKeyIs k.1.1 k.1.2 k.2.1 k.2.2
            (updatePairFields sim cp ns cs tp notes now x) =
            pairKeyIs k.1.1 k.1.2 k.2.1 k.2.2 x := rfl
        rw [hpres]
        exact List.find?_some hfx
  · intro now sa ma sb mb sim cp ns cs tp notes db hinv qa qb qc qd
    unfold saveMatchedPair
    simp only []
    rcases hfx : db.find? (pairKeyIs (canonicalKeys (sa, ma) (sb, mb)).1.1
        (canonicalKeys (sa, ma) (sb, mb)).1.2 (canonicalKeys (sa, ma) (sb, mb)).2.1
        (canonicalKeys (sa, ma) (sb, mb)).2.2) with _ | x
    · unfold countKey at hinv ⊢
      rw [List.filter_append, List.length_append]
      by_cases hq : pairKeyIs qa qb qc qd
          (updatePairFields sim cp ns cs tp notes now
            { source_a := (canonicalKeys (sa, ma) (sb, mb)).1.1,
              market_id_a := (canonicalKeys (sa, ma) (sb, mb)).1.2,
              source_b := (canonicalKeys (sa, ma) (sb, mb)).2.1,
              market_id_b := (canonicalKeys (sa, ma) (sb, mb)).2.2,
              similarity := sim, created_at := now, updated_at := now }) = true
      · obtain ⟨e1, e2, e3, e4⟩ :
            (canonicalKeys (sa, ma) (sb, mb)).1.1 = qa ∧
            (canonicalKeys (sa, ma) (sb, mb)).1.2 = qb ∧
            (canonicalKeys (sa, ma) (sb, mb)).2.1 = qc ∧
            (canonicalKeys (sa, ma) (sb, mb)).2.2 = qd := by
          have hq' := hq
          unfold pairKeyIs at hq'
          simp only [Bool.and_eq_true, beq_iff_eq] at hq'
          exact ⟨hq'.1.1.1, hq'.1.1.2, hq'.1.2, hq'.2⟩
        have h0 : (db.filter (pairKeyIs qa qb qc qd)).length = 0 := by
          rw [List.length_eq_zero]
          rw [List.filter_eq_nil_iff]
          intro r hr
          rw [← e1, ← e2, ← e3, ← e4]
          exact List.find?_eq_none.mp hfx r hr
        rw [h0]
        have h1 := List.length_filter_le (pairKeyIs qa qb qc qd)
          [updatePairFields sim cp ns cs tp notes now
            { source_a := (canonicalKeys (sa, ma) (sb, mb)).1.1,
              market_id_a := (canonicalKeys (sa, ma) (sb, mb)).1.2,
              source_b := (canonicalKeys (sa, ma) (sb, mb)).2.1,
              market_id_b := (canonicalKeys (sa, ma) (sb, mb)).2.2,
              similarity := sim, created_at := now, updated_at := now }]
        simpa using h1
      · have h1 : (List.filter (pairKeyIs qa qb qc qd)
            [updatePairFields sim cp ns cs tp notes now
              { source_a := (canonicalKeys (sa, ma) (sb, mb)).1.1,
                market_id_a := (canonicalKeys (sa, ma) (sb, mb)).1.2,
                source_b := (canonicalKeys (sa, ma) (sb, mb)).2.1,
                market_id_b := (canonicalKeys (sa, ma) (sb, mb)).2.2,
                similarity := sim, created_at := now, updated_at := now }]).length = 0 := by
          rw [List.filter_cons, if_neg (by simpa using hq)]
          rfl
        rw [h1]
        simpa using hinv qa qb qc qd
    · unfold countKey at hinv ⊢
      show (List.filter (pairKeyIs qa qb qc qd)
          (updateFirst (pairKeyIs (canonicalKeys (sa, ma) (sb, mb)).1.1
              (canonicalKeys (sa, ma) (sb, mb)).1.2 (canonicalKeys (sa, ma) (sb, mb)).2.1
              (canonicalKeys (sa, ma) (sb, mb)).2.2)
            (updatePairFields sim cp ns cs tp notes now) db)).length ≤ 1
      rw [filter_length_updateFirst (pairKeyIs (canonicalKeys (sa, ma) (sb, mb)).1.1
          (canonicalKeys (sa, ma) (sb, mb)).1.2 (canonicalKeys (sa, ma) (sb, mb)).2.1
          (canonicalKeys (sa, ma) (sb, mb)).2.2) (pairKeyIs qa qb qc qd)
          (updatePairFields sim cp ns cs tp notes now) (fun r => rfl) db]
      exact hinv qa qb qc qd

theorem save_matched_pair_canonical_witness :
    (saveMatchedPair 5 "b" "2" "a" "1" (3/4) none none none none none
        [exStoredPair]).length = [exStoredPair].length ∧
    ∃ r ∈ saveMatchedPair 5 "b" "2" "a" "1" (3/4) none none none none none
        [exStoredPair],
      pairKeyIs (("a", "1"), ("b", "2")).1.1 (("a", "1"), ("b", "2")).1.2
        (("a", "1"), ("b", "2")).2.1 (("a", "1"), ("b", "2")).2.2 r = true ∧
      r.similarity = 3/4 ∧ r.classifier_probability = none ∧
      r.name_similarity = none ∧ r.category_similarity = none ∧
      r.temporal_proximity = none ∧ r.notes = none ∧ r.updated_at = 5 :=
  save_matched_pair_canonical.2.2.1 5 "b" "2" "a" "1" (3/4) none none none none none
    [exStoredPair] (("a", "1"), ("b", "2")) (by decide) (by decide)
